import Mathlib

/-!
Shallow embedding of the worklog aggregation core (GitHub, GitLab and Jira
adapters) together with proofs about its merge, pagination, date-formatting
and error-handling behaviour.
-/

namespace Worklog

/-! ## Dates and timestamps

The adapters call Python's `datetime.fromisoformat` (always after replacing a
literal `Z` suffix by `+00:00`) and render dates with
`strftime("%d-%m-%Y %H:%M")`.  The definitions below model this library
behaviour for the inputs the program handles: `fromisoformat` parses
`YYYY-MM-DD[{T or space}HH[:MM[:SS[.frac]]][±HH:MM]]`, validating calendar
ranges, and `strftime` zero-pads every component. -/

def digitVal (c : Char) : Option Nat :=
  if 48 ≤ c.toNat ∧ c.toNat ≤ 57 then some (c.toNat - 48) else none

def parse2 : List Char → Option (Nat × List Char)
  | a :: b :: rest =>
    match digitVal a, digitVal b with
    | some x, some y => some (x * 10 + y, rest)
    | _, _ => none
  | _ => none

def parse4 : List Char → Option (Nat × List Char)
  | a :: b :: c :: d :: rest =>
    match digitVal a, digitVal b, digitVal c, digitVal d with
    | some x, some y, some z, some w => some (((x * 10 + y) * 10 + z) * 10 + w, rest)
    | _, _, _, _ => none
  | _ => none

def expectChar (c : Char) : List Char → Option (List Char)
  | x :: rest => if x = c then some rest else none
  | [] => none

/-- Optional fractional-second part: `.` or `,` followed by 1 to 6 digits. -/
def parseFracOpt (cs : List Char) : Option (List Char) :=
  match cs with
  | c :: rest =>
    if c = '.' ∨ c = ',' then
      let ds := rest.takeWhile Char.isDigit
      if 1 ≤ ds.length ∧ ds.length ≤ 6 then some (rest.drop ds.length) else none
    else some cs
  | [] => some []

/-- Optional UTC-offset part `±HH:MM`; must end the string when present. -/
def parseOffsetOpt (cs : List Char) : Option Unit :=
  match cs with
  | [] => some ()
  | c :: rest =>
    if c = '+' ∨ c = '-' then
      match parse2 rest with
      | some (oh, rest2) =>
        if oh ≤ 23 then
          match expectChar ':' rest2 with
          | some rest3 =>
            match parse2 rest3 with
            | some (om, rest4) =>
              if om ≤ 59 ∧ rest4 = [] then some () else none
            | none => none
          | none => none
        else none
      | none => none
    else none

/-- Time-of-day tail `HH[:MM[:SS[.frac]]][offset]`, consuming the whole rest. -/
def parseTimeTail (cs : List Char) : Option (Nat × Nat × Nat) :=
  match parse2 cs with
  | none => none
  | some (h, cs1) =>
    if h ≤ 23 then
      match cs1 with
      | ':' :: cs2 =>
        match parse2 cs2 with
        | none => none
        | some (mi, cs3) =>
          if mi ≤ 59 then
            match cs3 with
            | ':' :: cs4 =>
              match parse2 cs4 with
              | none => none
              | some (sec, cs5) =>
                if sec ≤ 59 then
                  match parseFracOpt cs5 with
                  | none => none
                  | some cs6 =>
                    match parseOffsetOpt cs6 with
                    | some _ => some (h, mi, sec)
                    | none => none
                else none
            | rest =>
              match parseOffsetOpt rest with
              | some _ => some (h, mi, 0)
              | none => none
          else none
      | rest =>
        match parseOffsetOpt rest with
        | some _ => some (h, 0, 0)
        | none => none
    else none

/-- Model of the only string replacement the adapters perform,
`date_str.replace("Z", "+00:00")`: every occurrence of the single character
`Z` is replaced by `+00:00`. -/
def replaceZUTC (s : String) : String :=
  String.mk (s.toList.foldr
    (fun c acc =>
      if c = 'Z' then '+' :: '0' :: '0' :: ':' :: '0' :: '0' :: acc
      else c :: acc) [])

structure DateTime where
  year : Nat
  month : Nat
  day : Nat
  hour : Nat
  minute : Nat
  second : Nat
  deriving DecidableEq, Repr

def isLeap (y : Nat) : Bool :=
  (y % 4 == 0 && y % 100 != 0) || y % 400 == 0

def daysInMonth (y m : Nat) : Nat :=
  if m = 2 then (if isLeap y then 29 else 28)
  else if m = 4 ∨ m = 6 ∨ m = 9 ∨ m = 11 then 30
  else 31

/-- Model of Python's `datetime.fromisoformat` on the string shapes this
program feeds it (the adapters always pre-replace `Z` with `+00:00`). -/
def fromisoformat (s : String) : Option DateTime :=
  (parse4 s.toList).bind fun py =>
  (expectChar '-' py.2).bind fun cs2 =>
  (parse2 cs2).bind fun pmo =>
  (expectChar '-' pmo.2).bind fun cs4 =>
  (parse2 cs4).bind fun pd =>
  if 1 ≤ pmo.1 ∧ pmo.1 ≤ 12 ∧ 1 ≤ pd.1 ∧ pd.1 ≤ daysInMonth py.1 pmo.1 then
    match pd.2 with
    | [] => some ⟨py.1, pmo.1, pd.1, 0, 0, 0⟩
    | sep :: rest =>
      if sep = 'T' ∨ sep = ' ' then
        (parseTimeTail rest).map fun t => ⟨py.1, pmo.1, pd.1, t.1, t.2.1, t.2.2⟩
      else none
  else none

structure Date where
  year : Nat
  month : Nat
  day : Nat
  deriving DecidableEq, Repr

def DateTime.date (dt : DateTime) : Date := ⟨dt.year, dt.month, dt.day⟩

/-- Lexicographic comparison of calendar dates, as Python's `date.__le__`. -/
def Date.leb (a b : Date) : Bool :=
  Nat.blt a.year b.year ||
    (a.year == b.year &&
      (Nat.blt a.month b.month ||
        (a.month == b.month && Nat.ble a.day b.day)))

/-- Zero-padded two-digit rendering, as `strftime` `%d`, `%m`, `%H`, `%M`. -/
def pad2 (n : Nat) : String :=
  if n < 10 then "0" ++ Nat.repr n else Nat.repr n

/-- Four-digit year rendering, as `strftime` `%Y`; agrees with Python's
zero-padded output on the whole `datetime` year range 1..9999. -/
def pad4 (n : Nat) : String :=
  pad2 (n / 100) ++ pad2 (n % 100)

/-- Model of `dt.strftime("%d-%m-%Y %H:%M")`. -/
def strftimeOut (dt : DateTime) : String :=
  pad2 dt.day ++ "-" ++ pad2 dt.month ++ "-" ++ pad4 dt.year ++ " " ++
    pad2 dt.hour ++ ":" ++ pad2 dt.minute

/-- `GitHubPlugin._format_date` and `GitLabPlugin._format_date` (their bodies
are identical): `None`/empty in gives `None`; a parseable ISO string (with
`Z` treated as `+00:00`) is rendered `DD-MM-YYYY HH:MM`; an unparseable
string is returned unchanged. -/
def formatDate : Option String → Option String
  | none => none
  | some s =>
    if s = "" then none
    else
      match fromisoformat (replaceZUTC s) with
      | some dt => some (strftimeOut dt)
      | none => some s

/-- Recogniser for the `DD-MM-YYYY HH:MM` output shape. -/
def isDDMMYYYYHHMM (s : String) : Bool :=
  match s.toList with
  | [d1, d2, c1, m1, m2, c2, y1, y2, y3, y4, sp, h1, h2, co, n1, n2] =>
    d1.isDigit && d2.isDigit && c1 == '-' && m1.isDigit && m2.isDigit &&
      c2 == '-' && y1.isDigit && y2.isDigit && y3.isDigit && y4.isDigit &&
      sp == ' ' && h1.isDigit && h2.isDigit && co == ':' && n1.isDigit &&
      n2.isDigit
  | _ => false

/-! ## Python `dict` model

The adapters deduplicate facet results with insertion-ordered Python dicts:
comprehensions `{item.get("id"): item for item in items}` and spread merges
`{**a, **b, **c}`.  A dict is modelled as an insertion-ordered association
list; `dinsert` is Python's `d[k] = v` (replace in place if the key exists,
else append), `dmerge` is `{**a, **b}`. -/

def dinsert {α β : Type} [DecidableEq α] (d : List (α × β)) (k : α) (v : β) :
    List (α × β) :=
  if d.any (fun kv => kv.1 == k) then
    d.map (fun kv => if kv.1 = k then (k, v) else kv)
  else d ++ [(k, v)]

/-- Python `{**a, **b}`: start from `a`, write each of `b`'s entries. -/
def dmerge {α β : Type} [DecidableEq α] (a b : List (α × β)) : List (α × β) :=
  b.foldl (fun d kv => dinsert d kv.1 kv.2) a

/-- Python `{key(x): x for x in xs}`. -/
def dictBy {α β : Type} [DecidableEq α] (key : β → α) (xs : List β) :
    List (α × β) :=
  xs.foldl (fun d x => dinsert d (key x) x) []

def dkeys {α β : Type} (d : List (α × β)) : List α := d.map Prod.fst

/-- Python `d.values()` in insertion order. -/
def dvalues {α β : Type} (d : List (α × β)) : List β := d.map Prod.snd

def dlookup {α β : Type} [DecidableEq α] (d : List (α × β)) (k : α) :
    Option β :=
  (d.find? (fun kv => kv.1 == k)).map Prod.snd

/-! ## Comment-timeframe validation

`GitHubPlugin._has_user_comment_in_timeframe` walks issue comments;
`GitLabPlugin._has_user_comment_in_timeframe` walks notes.  The two loops are
identical except for the author field path (`comment["user"]["login"]`
vs. `note["author"]["username"]`). -/

/-- A raw GitHub comment object as the plugin reads it: `user.login` (absent
user or login gives `None`), `created_at`, `body`. -/
structure GHRawComment where
  user_login : Option String
  created_at : Option String
  body : String
  deriving DecidableEq, Repr

/-- A raw GitLab note object: `author.username`, `created_at`, `body`, and
the `system` flag. -/
structure GLRawNote where
  author_username : Option String
  created_at : Option String
  body : String
  system : Bool
  deriving DecidableEq, Repr

/-- `GitHubPlugin._has_user_comment_in_timeframe`. -/
def hasUserCommentInTimeframe :
    List GHRawComment → String → Date → Date → Bool
  | [], _, _, _ => false
  | c :: rest, username, sinceDate, untilDate =>
    if c.user_login ≠ some username then
      hasUserCommentInTimeframe rest username sinceDate untilDate
    else
      if c.created_at.getD "" = "" then
        hasUserCommentInTimeframe rest username sinceDate untilDate
      else
        match fromisoformat (replaceZUTC (c.created_at.getD "")) with
        | some dt =>
          if Date.leb sinceDate dt.date && Date.leb dt.date untilDate then true
          else hasUserCommentInTimeframe rest username sinceDate untilDate
        | none => hasUserCommentInTimeframe rest username sinceDate untilDate

/-- `GitLabPlugin._has_user_comment_in_timeframe`. -/
def hasUserNoteInTimeframe :
    List GLRawNote → String → Date → Date → Bool
  | [], _, _, _ => false
  | n :: rest, username, sinceDate, untilDate =>
    if n.author_username ≠ some username then
      hasUserNoteInTimeframe rest username sinceDate untilDate
    else
      if n.created_at.getD "" = "" then
        hasUserNoteInTimeframe rest username sinceDate untilDate
      else
        match fromisoformat (replaceZUTC (n.created_at.getD "")) with
        | some dt =>
          if Date.leb sinceDate dt.date && Date.leb dt.date untilDate then true
          else hasUserNoteInTimeframe rest username sinceDate untilDate
        | none => hasUserNoteInTimeframe rest username sinceDate untilDate


/-! ## JSON values

The adapters return `json.dumps(result)`; reports are modelled up to
serialization as JSON values. -/

inductive JVal where
  | null
  | bool (v : Bool)
  | num (n : Int)
  | str (s : String)
  | arr (xs : List JVal)
  | obj (fields : List (String × JVal))
  deriving BEq, Repr

def JVal.getField : JVal → String → Option JVal
  | JVal.obj fields, k => (fields.find? (fun f => f.1 == k)).map Prod.snd
  | _, _ => none

/-- The names of an object's fields (empty for non-objects). -/
def JVal.objKeys : JVal → List String
  | JVal.obj fields => fields.map Prod.fst
  | _ => []

def optStrJ : Option String → JVal
  | none => JVal.null
  | some s => JVal.str s

def optIntJ : Option Int → JVal
  | none => JVal.null
  | some n => JVal.num n

/-- The canonical comment shape `{author, created_at, body}` shared by the
GitHub and GitLab normalizers. -/
structure FmtComment where
  author : Option String
  created_at : Option String
  body : String
  deriving DecidableEq, Repr

def FmtComment.toJVal (c : FmtComment) : JVal :=
  JVal.obj [("author", optStrJ c.author), ("created_at", optStrJ c.created_at),
    ("body", JVal.str c.body)]

/-! ## GitLab adapter embedding

`GitLabPlugin` is embedded against a server oracle: one typed field per
endpoint family the plugin queries (`/users`, `/issues`, `/merge_requests`,
`/projects/<id>`, and the two notes endpoints), each returning `none` to
model a request error (`_make_request` / a page of `_make_paginated_request`
returning `None`).  Every helper also returns the list of requests it
issued, so that request-count properties can be stated. -/

/-- A raw GitLab issue or merge-request object with the fields the plugin
reads (merge requests additionally carry `merged_at`). -/
structure GLRawItem where
  id : Option Int
  iid : Option Int
  project_id : Option Int
  title : Option String
  state : Option String
  author_username : Option String
  created_at : Option String
  updated_at : Option String
  closed_at : Option String
  merged_at : Option String
  description : String
  web_url : Option String
  deriving DecidableEq, Repr

structure GLProject where
  path_with_namespace : Option String
  deriving DecidableEq, Repr

structure GLUser where
  id : Option Int
  deriving DecidableEq, Repr

/-- One request issued by the GitLab plugin (the trace alphabet).
`notesPage`'s first argument is true for merge-request notes, false for
issue notes. -/
inductive GLCall where
  | usersQ (username : String)
  | issuesPage (params : List (String × String)) (page : Nat)
  | mrsPage (params : List (String × String)) (page : Nat)
  | projectQ (projectId : Option Int)
  | notesPage (isMR : Bool) (projectId : Option Int) (iid : Option Int) (page : Nat)
  deriving DecidableEq, Repr

structure GLServer where
  users : String → Option (List GLUser)
  issuesPage : List (String × String) → Nat → Option (List GLRawItem)
  mrsPage : List (String × String) → Nat → Option (List GLRawItem)
  project : Option Int → Option GLProject
  notesPage : Bool → Option Int → Option Int → Nat → Option (List GLRawNote)

/-- Loop body of `GitLabPlugin._make_paginated_request` (`per_page = 100`):
request page after page, stopping on a request error, an empty page, or a
short page; the `fuel` argument only bounds the unbounded `while True` so
the function is total — every theorem assumes enough fuel for the loop to
finish on its own. -/
def paginateAux {A : Type} (fetch : Nat → Option (List A)) (mk : Nat → GLCall) :
    Nat → Nat → List A → List GLCall → List A × List GLCall
  | 0, _, acc, calls => (acc, calls)
  | fuel + 1, page, acc, calls =>
    match fetch page with
    | none => (acc, calls ++ [mk page])
    | some items =>
      if items.isEmpty then (acc, calls ++ [mk page])
      else if items.length < 100 then (acc ++ items, calls ++ [mk page])
      else paginateAux fetch mk fuel (page + 1) (acc ++ items) (calls ++ [mk page])

/-- `GitLabPlugin._make_paginated_request`: starts at page 1 with an empty
accumulator. -/
def makePaginatedRequest {A : Type} (fetch : Nat → Option (List A))
    (mk : Nat → GLCall) (fuel : Nat) : List A × List GLCall :=
  paginateAux fetch mk fuel 1 [] []

/-- `date.isoformat()` for the window bounds passed as query parameters. -/
def Date.isoformat (d : Date) : String :=
  pad4 d.year ++ "-" ++ pad2 d.month ++ "-" ++ pad2 d.day

/-- `GitLabPlugin._get_user_id`: first user's `id`, else `None`. -/
def getUserId (srv : GLServer) (username : String) :
    Option Int × List GLCall :=
  (match srv.users username with
   | some (u :: _) => u.id
   | _ => none,
   [GLCall.usersQ username])

/-- `GitLabPlugin._format_notes`: skip system notes, normalize the rest. -/
def formatNotes : List GLRawNote → List FmtComment
  | [] => []
  | n :: rest =>
    if n.system then formatNotes rest
    else
      { author := n.author_username, created_at := formatDate n.created_at,
        body := n.body } :: formatNotes rest

/-- `GitLabPlugin._get_user_created_issues`. -/
def getUserCreatedIssuesGL (srv : GLServer) (fuel : Nat) (userId : Int)
    (sinceDate untilDate : Date) :
    List (Option Int × GLRawItem) × List GLCall :=
  let params := [("author_id", toString userId),
    ("created_after", sinceDate.isoformat),
    ("created_before", untilDate.isoformat), ("scope", "all")]
  let r := makePaginatedRequest (srv.issuesPage params)
    (GLCall.issuesPage params) fuel
  (dictBy (fun it => it.id) r.1, r.2)

/-- `GitLabPlugin._get_user_assigned_issues`. -/
def getUserAssignedIssuesGL (srv : GLServer) (fuel : Nat) (userId : Int)
    (sinceDate untilDate : Date) :
    List (Option Int × GLRawItem) × List GLCall :=
  let params := [("assignee_id", toString userId),
    ("updated_after", sinceDate.isoformat),
    ("updated_before", untilDate.isoformat), ("scope", "all")]
  let r := makePaginatedRequest (srv.issuesPage params)
    (GLCall.issuesPage params) fuel
  (dictBy (fun it => it.id) r.1, r.2)

/-- The secondary `closed_at`-window filter of
`GitLabPlugin._get_user_closed_issues` (an empty or absent `closed_at`, and
an unparseable one, are skipped). -/
def filterClosedInRange (issues : List GLRawItem)
    (sinceDate untilDate : Date) : List (Option Int × GLRawItem) :=
  issues.foldl
    (fun d issue =>
      match issue.closed_at with
      | none => d
      | some ca =>
        match fromisoformat (replaceZUTC ca) with
        | none => d
        | some dt =>
          if Date.leb sinceDate dt.date && Date.leb dt.date untilDate then
            dinsert d issue.id issue
          else d) []

/-- `GitLabPlugin._get_user_closed_issues`. -/
def getUserClosedIssuesGL (srv : GLServer) (fuel : Nat) (userId : Int)
    (sinceDate untilDate : Date) :
    List (Option Int × GLRawItem) × List GLCall :=
  let params := [("assignee_id", toString userId), ("state", "closed"),
    ("updated_after", sinceDate.isoformat),
    ("updated_before", untilDate.isoformat), ("scope", "all")]
  let r := makePaginatedRequest (srv.issuesPage params)
    (GLCall.issuesPage params) fuel
  (filterClosedInRange r.1 sinceDate untilDate, r.2)

/-- A normalized GitLab issue record. -/
structure GLIssueRecord where
  id : Option Int
  repository : String
  title : Option String
  state : Option String
  created_by : Option String
  created_at : Option String
  updated_at : Option String
  closed_at : Option String
  body : String
  comments : List FmtComment
  url : Option String
  deriving DecidableEq, Repr

/-- `GitLabPlugin._format_issue`: project lookup, paginated notes fetch
(which returns `[]` on a failed page), then the canonical record. -/
def formatIssueGL (srv : GLServer) (fuel : Nat) (issue : GLRawItem) :
    GLIssueRecord × List GLCall :=
  let repository :=
    match srv.project issue.project_id with
    | some p => p.path_with_namespace.getD "unknown"
    | none => "unknown"
  let notes := makePaginatedRequest
    (srv.notesPage false issue.project_id issue.iid)
    (GLCall.notesPage false issue.project_id issue.iid) fuel
  ({ id := issue.iid, repository := repository, title := issue.title,
     state := issue.state, created_by := issue.author_username,
     created_at := formatDate issue.created_at,
     updated_at := formatDate issue.updated_at,
     closed_at := formatDate issue.closed_at, body := issue.description,
     comments := formatNotes notes.1, url := issue.web_url },
   GLCall.projectQ issue.project_id :: notes.2)

/-- `GitLabPlugin._get_user_issues`: three facets, dict-spread merge, then
per-record normalization. -/
def getUserIssuesGL (srv : GLServer) (fuel : Nat) (userId : Int)
    (sinceDate untilDate : Date) : List GLIssueRecord × List GLCall :=
  let created := getUserCreatedIssuesGL srv fuel userId sinceDate untilDate
  let assigned := getUserAssignedIssuesGL srv fuel userId sinceDate untilDate
  let closed := getUserClosedIssuesGL srv fuel userId sinceDate untilDate
  let allIssues := dmerge (dmerge created.1 assigned.1) closed.1
  let formatted := (dvalues allIssues).map (formatIssueGL srv fuel)
  (formatted.map Prod.fst,
   created.2 ++ assigned.2 ++ closed.2 ++
     (formatted.map Prod.snd).foldr (· ++ ·) [])

/-- `GitLabPlugin._get_user_created_merge_requests`. -/
def getUserCreatedMRsGL (srv : GLServer) (fuel : Nat) (userId : Int)
    (sinceDate untilDate : Date) :
    List (Option Int × GLRawItem) × List GLCall :=
  let params := [("author_id", toString userId),
    ("created_after", sinceDate.isoformat),
    ("created_before", untilDate.isoformat), ("scope", "all")]
  let r := makePaginatedRequest (srv.mrsPage params) (GLCall.mrsPage params)
    fuel
  (dictBy (fun it => it.id) r.1, r.2)

/-- `GitLabPlugin._get_user_assigned_merge_requests`. -/
def getUserAssignedMRsGL (srv : GLServer) (fuel : Nat) (userId : Int)
    (sinceDate untilDate : Date) :
    List (Option Int × GLRawItem) × List GLCall :=
  let params := [("assignee_id", toString userId),
    ("updated_after", sinceDate.isoformat),
    ("updated_before", untilDate.isoformat), ("scope", "all")]
  let r := makePaginatedRequest (srv.mrsPage params) (GLCall.mrsPage params)
    fuel
  (dictBy (fun it => it.id) r.1, r.2)

/-- `GitLabPlugin._get_user_reviewed_merge_requests`. -/
def getUserReviewedMRsGL (srv : GLServer) (fuel : Nat) (userId : Int)
    (sinceDate untilDate : Date) :
    List (Option Int × GLRawItem) × List GLCall :=
  let params := [("reviewer_id", toString userId),
    ("updated_after", sinceDate.isoformat),
    ("updated_before", untilDate.isoformat), ("scope", "all")]
  let r := makePaginatedRequest (srv.mrsPage params) (GLCall.mrsPage params)
    fuel
  (dictBy (fun it => it.id) r.1, r.2)

/-- The secondary `merged_at`-window filter of
`GitLabPlugin._get_user_closed_merge_requests`. -/
def filterMergedInRange (mrs : List GLRawItem)
    (sinceDate untilDate : Date) : List (Option Int × GLRawItem) :=
  mrs.foldl
    (fun d mr =>
      match mr.merged_at with
      | none => d
      | some ma =>
        match fromisoformat (replaceZUTC ma) with
        | none => d
        | some dt =>
          if Date.leb sinceDate dt.date && Date.leb dt.date untilDate then
            dinsert d mr.id mr
          else d) []

/-- `GitLabPlugin._get_user_closed_merge_requests`. -/
def getUserClosedMRsGL (srv : GLServer) (fuel : Nat) (userId : Int)
    (sinceDate untilDate : Date) :
    List (Option Int × GLRawItem) × List GLCall :=
  let params := [("assignee_id", toString userId), ("state", "merged"),
    ("updated_after", sinceDate.isoformat),
    ("updated_before", untilDate.isoformat), ("scope", "all")]
  let r := makePaginatedRequest (srv.mrsPage params) (GLCall.mrsPage params)
    fuel
  (filterMergedInRange r.1 sinceDate untilDate, r.2)

/-- A normalized GitLab merge-request record (issue shape plus
`merged_at`). -/
structure GLMergeRequestRecord where
  id : Option Int
  repository : String
  title : Option String
  state : Option String
  created_by : Option String
  created_at : Option String
  updated_at : Option String
  closed_at : Option String
  merged_at : Option String
  body : String
  comments : List FmtComment
  url : Option String
  deriving DecidableEq, Repr

/-- `GitLabPlugin._format_merge_request`. -/
def formatMergeRequestGL (srv : GLServer) (fuel : Nat) (mr : GLRawItem) :
    GLMergeRequestRecord × List GLCall :=
  let repository :=
    match srv.project mr.project_id with
    | some p => p.path_with_namespace.getD "unknown"
    | none => "unknown"
  let notes := makePaginatedRequest (srv.notesPage true mr.project_id mr.iid)
    (GLCall.notesPage true mr.project_id mr.iid) fuel
  ({ id := mr.iid, repository := repository, title := mr.title,
     state := mr.state, created_by := mr.author_username,
     created_at := formatDate mr.created_at,
     updated_at := formatDate mr.updated_at,
     closed_at := formatDate mr.closed_at,
     merged_at := formatDate mr.merged_at, body := mr.description,
     comments := formatNotes notes.1, url := mr.web_url },
   GLCall.projectQ mr.project_id :: notes.2)

/-- `GitLabPlugin._get_user_merge_requests`: four facets, dict-spread merge,
then per-record normalization. -/
def getUserMergeRequestsGL (srv : GLServer) (fuel : Nat) (userId : Int)
    (sinceDate untilDate : Date) :
    List GLMergeRequestRecord × List GLCall :=
  let created := getUserCreatedMRsGL srv fuel userId sinceDate untilDate
  let assigned := getUserAssignedMRsGL srv fuel userId sinceDate untilDate
  let reviewed := getUserReviewedMRsGL srv fuel userId sinceDate untilDate
  let closed := getUserClosedMRsGL srv fuel userId sinceDate untilDate
  let allMRs := dmerge (dmerge (dmerge created.1 assigned.1) reviewed.1)
    closed.1
  let formatted := (dvalues allMRs).map (formatMergeRequestGL srv fuel)
  (formatted.map Prod.fst,
   created.2 ++ assigned.2 ++ reviewed.2 ++ closed.2 ++
     (formatted.map Prod.snd).foldr (· ++ ·) [])

def GLIssueRecord.toJVal (r : GLIssueRecord) : JVal :=
  JVal.obj [("id", optIntJ r.id), ("repository", JVal.str r.repository),
    ("title", optStrJ r.title), ("state", optStrJ r.state),
    ("created_by", optStrJ r.created_by),
    ("created_at", optStrJ r.created_at),
    ("updated_at", optStrJ r.updated_at),
    ("closed_at", optStrJ r.closed_at), ("body", JVal.str r.body),
    ("comments", JVal.arr (r.comments.map FmtComment.toJVal)),
    ("url", optStrJ r.url)]

def GLMergeRequestRecord.toJVal (r : GLMergeRequestRecord) : JVal :=
  JVal.obj [("id", optIntJ r.id), ("repository", JVal.str r.repository),
    ("title", optStrJ r.title), ("state", optStrJ r.state),
    ("created_by", optStrJ r.created_by),
    ("created_at", optStrJ r.created_at),
    ("updated_at", optStrJ r.updated_at),
    ("closed_at", optStrJ r.closed_at),
    ("merged_at", optStrJ r.merged_at), ("body", JVal.str r.body),
    ("comments", JVal.arr (r.comments.map FmtComment.toJVal)),
    ("url", optStrJ r.url)]

/-- `GitLabPlugin.process`: resolve the user id (a falsy id — `None` from a
failed or empty lookup, or id `0` — aborts with the error payload before any
facet query); otherwise run the issue and merge-request pipelines and
assemble the report. -/
def gitlabProcess (srv : GLServer) (fuel : Nat) (username : String)
    (sinceDate untilDate : Date) : JVal × List GLCall :=
  let uid := getUserId srv username
  match uid.1 with
  | none => (JVal.obj [("error", JVal.str "Could not retrieve user ID")],
      uid.2)
  | some userId =>
    if userId = 0 then
      (JVal.obj [("error", JVal.str "Could not retrieve user ID")], uid.2)
    else
      let issues := getUserIssuesGL srv fuel userId sinceDate untilDate
      let mrs := getUserMergeRequestsGL srv fuel userId sinceDate untilDate
      (JVal.obj [("source", JVal.str "gitlab"),
        ("user", JVal.str username),
        ("activity", JVal.obj
          [("issues", JVal.arr (issues.1.map GLIssueRecord.toJVal)),
           ("merge_requests",
             JVal.arr (mrs.1.map GLMergeRequestRecord.toJVal))])],
       uid.2 ++ issues.2 ++ mrs.2)

/-- An honest server holding a fixed item list: page `p` (1-based) serves
items `(p-1)*100 .. p*100-1`. -/
def pageSlice {A : Type} (allItems : List A) (p : Nat) : List A :=
  (allItems.drop ((p - 1) * 100)).take 100

/-! ## GitHub adapter embedding

`GitHubPlugin` is embedded against a server oracle with one typed field per
endpoint family: `/search/<type>` (via `_search_github`), the per-issue
comments endpoints and the pull-request detail endpoints (both via
`_make_request`); `none` models a request error. -/

/-- Python `s.replace(pat, rep)` (leftmost, non-overlapping, all
occurrences); the fuel is the character count, enough for every step. -/
def replaceAllAux (pat rep : List Char) : Nat → List Char → List Char
  | 0, cs => cs
  | _ + 1, [] => []
  | fuel + 1, c :: cs =>
    if pat ≠ [] ∧ pat.isPrefixOf (c :: cs) then
      rep ++ replaceAllAux pat rep fuel (List.drop pat.length (c :: cs))
    else c :: replaceAllAux pat rep fuel cs

def strReplace (s pat rep : String) : String :=
  String.mk (replaceAllAux pat.toList rep.toList s.toList.length s.toList)

/-- Python `s.split("/")`. -/
def splitOnSlash (s : String) : List String :=
  s.toList.foldr
    (fun c acc =>
      if c = '/' then "" :: acc
      else
        match acc with
        | h :: t => String.mk (c :: h.toList) :: t
        | [] => [String.mk [c]])
    [""]

/-- `self.api_base_url`, hardcoded in the source. -/
def apiBaseUrl : String := "https://api.github.com"

/-- The `pull_request` sub-object of a search hit (present only for pull
requests). -/
structure GHPullRef where
  url : String
  deriving DecidableEq, Repr

/-- A raw GitHub search hit (issue or PR) with the fields the plugin
reads. -/
structure GHRawIssue where
  id : Option Int
  number : Option Int
  title : Option String
  state : Option String
  user_login : Option String
  created_at : Option String
  updated_at : Option String
  closed_at : Option String
  body : String
  comments_url : String
  repository_url : String
  html_url : Option String
  pull_request : Option GHPullRef
  deriving DecidableEq, Repr

/-- The PR-detail response; only `merged_at` is read. -/
structure GHPRDetails where
  merged_at : Option String
  deriving DecidableEq, Repr

/-- A search response body; `items = none` models a 2xx response whose JSON
lacks an `"items"` key. -/
structure GHSearchResp where
  items : Option (List GHRawIssue)
  deriving DecidableEq, Repr

structure GHServer where
  search : String → String → Option GHSearchResp
  comments : String → Option (List GHRawComment)
  prDetails : String → Option GHPRDetails

/-- The single HTTP request `_search_github` builds: endpoint
`/search/<type>` with params `q`, `per_page = 100`, `sort` (by update time,
or author date for commits) and `order = desc`. -/
structure GHSearchReq where
  endpoint : String
  q : String
  per_page : Nat
  sort : String
  order : String
  deriving DecidableEq, Repr

def searchGithubRequest (searchType query : String) : GHSearchReq :=
  { endpoint := "/search/" ++ searchType, q := query, per_page := 100,
    sort := if searchType ≠ "commits" then "updated" else "author-date",
    order := "desc" }

/-- The requests `_search_github` issues: exactly the one search GET (the
function has no pagination loop). -/
def searchGithubTrace (searchType query : String) : List GHSearchReq :=
  [searchGithubRequest searchType query]

/-- `GitHubPlugin._search_github`: `None` on request error, `[]` when the
response lacks `"items"`, else the items. -/
def searchGithub (srv : GHServer) (searchType query : String) :
    Option (List GHRawIssue) :=
  match srv.search searchType query with
  | none => none
  | some resp =>
    match resp.items with
    | none => some []
    | some items => some items

/-- The query built by `_get_user_commented_issues`. -/
def commentedIssuesQuery (username : String) (sinceDate untilDate : Date) :
    String :=
  "commenter:" ++ username ++ " updated:" ++ sinceDate.isoformat ++ ".." ++
    untilDate.isoformat ++ " is:issue"

/-- The query built by `_get_user_created_issues`. -/
def createdIssuesQuery (username : String) (sinceDate untilDate : Date) :
    String :=
  "author:" ++ username ++ " created:" ++ sinceDate.isoformat ++ ".." ++
    untilDate.isoformat ++ " is:issue"

/-- The query built by `_get_user_closed_issues`. -/
def closedIssuesQuery (username : String) (sinceDate untilDate : Date) :
    String :=
  "assignee:" ++ username ++ " closed:" ++ sinceDate.isoformat ++ ".." ++
    untilDate.isoformat ++ " is:issue"

/-- `GitHubPlugin._get_user_commented_issues`: search, then keep only hits
with a non-empty comment list containing a comment by the user inside the
window; keyed by raw `id`. -/
def getUserCommentedIssues (srv : GHServer) (username : String)
    (sinceDate untilDate : Date) : List (Option Int × GHRawIssue) :=
  match searchGithub srv "issues"
      (commentedIssuesQuery username sinceDate untilDate) with
  | none => []
  | some issuesRaw =>
    issuesRaw.foldl
      (fun d issue =>
        match srv.comments (strReplace issue.comments_url apiBaseUrl "") with
        | none => d
        | some cs =>
          if cs.isEmpty then d
          else if hasUserCommentInTimeframe cs username sinceDate untilDate
          then dinsert d issue.id issue
          else d)
      []

/-- `GitHubPlugin._get_user_created_issues`: search and key by raw `id`,
skipping hits that carry a `pull_request` sub-object. -/
def getUserCreatedIssues (srv : GHServer) (username : String)
    (sinceDate untilDate : Date) : List (Option Int × GHRawIssue) :=
  match searchGithub srv "issues"
      (createdIssuesQuery username sinceDate untilDate) with
  | none => []
  | some issuesRaw =>
    issuesRaw.foldl
      (fun d issue =>
        if issue.pull_request.isSome then d else dinsert d issue.id issue)
      []

/-- `GitHubPlugin._get_user_closed_issues`. -/
def getUserClosedIssues (srv : GHServer) (username : String)
    (sinceDate untilDate : Date) : List (Option Int × GHRawIssue) :=
  match searchGithub srv "issues"
      (closedIssuesQuery username sinceDate untilDate) with
  | none => []
  | some issuesRaw =>
    issuesRaw.foldl
      (fun d issue =>
        if issue.pull_request.isSome then d else dinsert d issue.id issue)
      []

/-- `repo_url.split("/")` with `[-2]`/`[-1]` extraction, as in the
normalizers. -/
def repoFromUrl (repoUrl : String) : String :=
  let parts := splitOnSlash repoUrl
  if parts.length ≥ 2 then
    parts.getD (parts.length - 2) "" ++ "/" ++
      parts.getD (parts.length - 1) ""
  else "unknown/unknown"

/-- GitHub comment normalization (the comment loop shared by
`_get_user_issues` and `_get_user_pull_requests`). -/
def formatCommentGH (c : GHRawComment) : FmtComment :=
  { author := c.user_login, created_at := formatDate c.created_at,
    body := c.body }

/-- A normalized GitHub issue record. -/
structure GHIssueRecord where
  id : Option Int
  repository : String
  title : Option String
  state : Option String
  created_by : Option String
  created_at : Option String
  updated_at : Option String
  closed_at : Option String
  body : String
  comments : List FmtComment
  url : Option String
  deriving DecidableEq, Repr

/-- The per-issue normalization step inside
`GitHubPlugin._get_user_issues`: a failed (or empty) comment fetch leaves
`comments = []` and the record is still built. -/
def formatIssueGH (srv : GHServer) (issue : GHRawIssue) : GHIssueRecord :=
  let comments :=
    match srv.comments (strReplace issue.comments_url apiBaseUrl "") with
    | some cs => cs.map formatCommentGH
    | none => []
  { id := issue.number, repository := repoFromUrl issue.repository_url,
    title := issue.title, state := issue.state,
    created_by := issue.user_login,
    created_at := formatDate issue.created_at,
    updated_at := formatDate issue.updated_at,
    closed_at := formatDate issue.closed_at, body := issue.body,
    comments := comments, url := issue.html_url }

/-- The merged issue dict of `GitHubPlugin._get_user_issues`:
`{**commented_issues, **created_issues, **closed_issues}`. -/
def allUserIssues (srv : GHServer) (username : String)
    (sinceDate untilDate : Date) : List (Option Int × GHRawIssue) :=
  dmerge
    (dmerge (getUserCommentedIssues srv username sinceDate untilDate)
      (getUserCreatedIssues srv username sinceDate untilDate))
    (getUserClosedIssues srv username sinceDate untilDate)

/-- `GitHubPlugin._get_user_issues` (not invoked by `process` in the
source, which has the issues section commented out). -/
def getUserIssues (srv : GHServer) (username : String)
    (sinceDate untilDate : Date) : List GHIssueRecord :=
  (dvalues (allUserIssues srv username sinceDate untilDate)).map
    (formatIssueGH srv)

/-- The query built by `_get_user_commented_prs`. -/
def commentedPRsQuery (username : String) (sinceDate untilDate : Date) :
    String :=
  "commenter:" ++ username ++ " updated:" ++ sinceDate.isoformat ++ ".." ++
    untilDate.isoformat ++ " is:pr"

/-- The query built by `_get_user_created_prs`. -/
def createdPRsQuery (username : String) (sinceDate untilDate : Date) :
    String :=
  "author:" ++ username ++ " created:" ++ sinceDate.isoformat ++ ".." ++
    untilDate.isoformat ++ " is:pr"

/-- The query built by `_get_user_closed_prs`. -/
def closedPRsQuery (username : String) (sinceDate untilDate : Date) :
    String :=
  "assignee:" ++ username ++ " closed:" ++ sinceDate.isoformat ++ ".." ++
    untilDate.isoformat ++ " is:pr"

/-- The query built by `_get_user_reviewed_prs` (the source interpolates the
raw date object for the upper bound, which renders as its isoformat). -/
def reviewedPRsQuery (username : String) (sinceDate untilDate : Date) :
    String :=
  "reviewed-by:" ++ username ++ " -author:" ++ username ++ " closed:" ++
    sinceDate.isoformat ++ ".." ++ untilDate.isoformat ++ " is:pr"

/-- `GitHubPlugin._get_user_commented_prs`. -/
def getUserCommentedPRs (srv : GHServer) (username : String)
    (sinceDate untilDate : Date) : List (Option Int × GHRawIssue) :=
  match searchGithub srv "issues"
      (commentedPRsQuery username sinceDate untilDate) with
  | none => []
  | some prsRaw =>
    prsRaw.foldl
      (fun d pr =>
        match srv.comments (strReplace pr.comments_url apiBaseUrl "") with
        | none => d
        | some cs =>
          if cs.isEmpty then d
          else if hasUserCommentInTimeframe cs username sinceDate untilDate
          then dinsert d pr.id pr
          else d)
      []

/-- `GitHubPlugin._get_user_created_prs` (no `pull_request` filter here). -/
def getUserCreatedPRs (srv : GHServer) (username : String)
    (sinceDate untilDate : Date) : List (Option Int × GHRawIssue) :=
  match searchGithub srv "issues"
      (createdPRsQuery username sinceDate untilDate) with
  | none => []
  | some prsRaw => prsRaw.foldl (fun d pr => dinsert d pr.id pr) []

/-- `GitHubPlugin._get_user_closed_prs`. -/
def getUserClosedPRs (srv : GHServer) (username : String)
    (sinceDate untilDate : Date) : List (Option Int × GHRawIssue) :=
  match searchGithub srv "issues"
      (closedPRsQuery username sinceDate untilDate) with
  | none => []
  | some prsRaw => prsRaw.foldl (fun d pr => dinsert d pr.id pr) []

/-- `GitHubPlugin._get_user_reviewed_prs`. -/
def getUserReviewedPRs (srv : GHServer) (username : String)
    (sinceDate untilDate : Date) : List (Option Int × GHRawIssue) :=
  match searchGithub srv "issues"
      (reviewedPRsQuery username sinceDate untilDate) with
  | none => []
  | some prsRaw => prsRaw.foldl (fun d pr => dinsert d pr.id pr) []

/-- A normalized GitHub pull-request record (issue shape plus
`merged_at`). -/
structure GHPRRecord where
  id : Option Int
  repository : String
  title : Option String
  state : Option String
  created_by : Option String
  created_at : Option String
  updated_at : Option String
  closed_at : Option String
  merged_at : Option String
  body : String
  comments : List FmtComment
  url : Option String
  deriving DecidableEq, Repr

/-- The per-PR normalization step inside
`GitHubPlugin._get_user_pull_requests`: detail fetch for `merged_at` (an
absent `pull_request.url` or a failed fetch yields `None`), comment fetch,
then the canonical record. -/
def formatPRGH (srv : GHServer) (pr : GHRawIssue) : GHPRRecord :=
  let prApiUrl :=
    strReplace (match pr.pull_request with
      | some ref => ref.url
      | none => "") apiBaseUrl ""
  let mergedAt :=
    if prApiUrl = "" then none
    else
      match srv.prDetails prApiUrl with
      | none => none
      | some det => det.merged_at
  let comments :=
    match srv.comments (strReplace pr.comments_url apiBaseUrl "") with
    | some cs => cs.map formatCommentGH
    | none => []
  { id := pr.number, repository := repoFromUrl pr.repository_url,
    title := pr.title, state := pr.state, created_by := pr.user_login,
    created_at := formatDate pr.created_at,
    updated_at := formatDate pr.updated_at,
    closed_at := formatDate pr.closed_at,
    merged_at := formatDate mergedAt, body := pr.body,
    comments := comments, url := pr.html_url }

/-- The merged PR dict of `GitHubPlugin._get_user_pull_requests`:
`{**commented_prs, **created_prs, **closed_prs, **reviewed_prs}`. -/
def allUserPRs (srv : GHServer) (username : String)
    (sinceDate untilDate : Date) : List (Option Int × GHRawIssue) :=
  dmerge
    (dmerge
      (dmerge (getUserCommentedPRs srv username sinceDate untilDate)
        (getUserCreatedPRs srv username sinceDate untilDate))
      (getUserClosedPRs srv username sinceDate untilDate))
    (getUserReviewedPRs srv username sinceDate untilDate)

/-- `GitHubPlugin._get_user_pull_requests`. -/
def getUserPullRequests (srv : GHServer) (username : String)
    (sinceDate untilDate : Date) : List GHPRRecord :=
  (dvalues (allUserPRs srv username sinceDate untilDate)).map
    (formatPRGH srv)

def GHPRRecord.toJVal (r : GHPRRecord) : JVal :=
  JVal.obj [("id", optIntJ r.id), ("repository", JVal.str r.repository),
    ("title", optStrJ r.title), ("state", optStrJ r.state),
    ("created_by", optStrJ r.created_by),
    ("created_at", optStrJ r.created_at),
    ("updated_at", optStrJ r.updated_at),
    ("closed_at", optStrJ r.closed_at),
    ("merged_at", optStrJ r.merged_at), ("body", JVal.str r.body),
    ("comments", JVal.arr (r.comments.map FmtComment.toJVal)),
    ("url", optStrJ r.url)]

/-- `GitHubPlugin.process`: in the source the issues and commits sections
are commented out, so the report's activity holds only `pull_requests`. -/
def githubProcess (srv : GHServer) (username : String)
    (sinceDate untilDate : Date) : JVal :=
  let pullRequests := getUserPullRequests srv username sinceDate untilDate
  JVal.obj [("source", JVal.str "github"), ("user", JVal.str username),
    ("activity", JVal.obj
      [("pull_requests", JVal.arr (pullRequests.map GHPRRecord.toJVal))])]

/-! ## Jira adapter embedding

`JiraPlugin` issues one search request per facet (`closed_issues`,
`commented_issues`); the oracle maps a JQL string to a response, `none`
modelling a request error.  A field absent from a raw object is modelled as
`none` (the source's `.get(..., default)` fallbacks are applied at
normalization). -/

/-- A raw Jira comment: `author.displayName`, `created`, `body`. -/
structure JiraRawComment where
  author_displayName : Option String
  created : Option String
  body : Option String
  deriving DecidableEq, Repr

/-- The fields sub-object of a raw Jira issue that `Issue` reads
(`fields.comment.comments` defaults to `[]` when absent). -/
structure JiraFields where
  summary : Option String
  status_name : Option String
  issuetype_name : Option String
  description : Option String
  comments : List JiraRawComment
  assignee_displayName : Option String
  reporter_displayName : Option String
  created : Option String
  deriving DecidableEq, Repr

/-- A raw Jira issue (`key` plus `fields`). -/
structure JiraRawIssue where
  key : Option String
  fields : JiraFields
  deriving DecidableEq, Repr

/-- The timestamp normalization of `Issue.extract_comments` (also used for
`fields.created` in `Issue.to_dict`, whose walrus-guard skips `None` and
empty strings): start from the placeholder `"Unknown"`, overwrite it only
when the timestamp parses. -/
def jiraFormatCreated (ts : String) : String :=
  if ts = "" then "Unknown"
  else
    match fromisoformat (replaceZUTC ts) with
    | some dt => strftimeOut dt
    | none => "Unknown"

/-- A formatted Jira comment `{author, created, body}`. -/
structure JiraFmtComment where
  author : String
  created : String
  body : String
  deriving DecidableEq, Repr

/-- `Issue.extract_comments`. -/
def extractComments (comments : List JiraRawComment) :
    List JiraFmtComment :=
  comments.map
    (fun c =>
      { author := c.author_displayName.getD "Unknown",
        created := jiraFormatCreated (c.created.getD ""),
        body := c.body.getD "No comment text" })

def JiraFmtComment.toJVal (c : JiraFmtComment) : JVal :=
  JVal.obj [("author", JVal.str c.author), ("created", JVal.str c.created),
    ("body", JVal.str c.body)]

/-- `Issue.to_dict`. -/
def jiraToDict (issue : JiraRawIssue) : JVal :=
  JVal.obj [("key", JVal.str (issue.key.getD "Unknown")),
    ("name", JVal.str (issue.fields.summary.getD "No summary")),
    ("status", JVal.str (issue.fields.status_name.getD "Unknown")),
    ("type", JVal.str (issue.fields.issuetype_name.getD "Unknown")),
    ("description",
      JVal.str (issue.fields.description.getD "No description")),
    ("comments",
      JVal.arr
        ((extractComments issue.fields.comments).map JiraFmtComment.toJVal)),
    ("assignee",
      JVal.str (issue.fields.assignee_displayName.getD "Unassigned")),
    ("reporter",
      JVal.str (issue.fields.reporter_displayName.getD "Unknown")),
    ("created",
      JVal.str (jiraFormatCreated (issue.fields.created.getD "")))]

/-- A Jira search response; `issues = none` models a response without an
`"issues"` key. -/
structure JiraSearchResp where
  issues : Option (List JiraRawIssue)
  deriving DecidableEq, Repr

structure JiraServer where
  searchJql : String → Option JiraSearchResp

/-- The JQL built by `JiraPlugin._get_closed_issues`. -/
def closedJql (username sinceStr untilStr : String) : String :=
  "status changed to (Resolved, Closed, Done) BY '" ++ username ++
    "' DURING ('" ++ sinceStr ++ "', '" ++ untilStr ++
    "') ORDER BY updated DESC"

/-- The JQL built by `JiraPlugin._get_commented_issues`. -/
def commentedJql (username sinceStr untilStr : String) : String :=
  "issueFunction in commented('by " ++ username ++ " after " ++ sinceStr ++
    " before " ++ untilStr ++ "') ORDER BY updated DESC"

/-- `JiraPlugin._get_issues`: each facet's response contributes its
`"issues"` list, or `[]` when the request failed or the key is absent; the
result dict keeps the facet order `closed_issues`, `commented_issues`. -/
def jiraGetIssues (srv : JiraServer) (username sinceStr untilStr : String) :
    List (String × List JiraRawIssue) :=
  [("closed_issues",
      match srv.searchJql (closedJql username sinceStr untilStr) with
      | some resp =>
        match resp.issues with
        | some issues => issues
        | none => []
      | none => []),
   ("commented_issues",
      match srv.searchJql (commentedJql username sinceStr untilStr) with
      | some resp =>
        match resp.issues with
        | some issues => issues
        | none => []
      | none => [])]

/-- `JiraPlugin.process`: window bounds rendered `YYYY-MM-DD`; the report's
top-level keys are `source`, `name` (not `user`) and `activity`. -/
def jiraProcess (srv : JiraServer) (username : String)
    (sinceDate untilDate : Date) : JVal :=
  let sinceStr := sinceDate.isoformat
  let untilStr := untilDate.isoformat
  JVal.obj [("source", JVal.str "jira"), ("name", JVal.str username),
    ("activity", JVal.obj
      ((jiraGetIssues srv username sinceStr untilStr).map
        (fun kv => (kv.1, JVal.arr (kv.2.map jiraToDict)))))]

/-- Is a JSON value an object every field of which is an array?  (The
`activity` shape C4 asserts.) -/
def JVal.isActivityObj : JVal → Bool
  | JVal.obj fields =>
    fields.all
      (fun f =>
        match f.2 with
        | JVal.arr _ => true
        | _ => false)
  | _ => false

/-! ## Concrete scenario fixtures -/

/-- Raw issue id 42 as the created-issues facet returns it. -/
def ghIssue42Created : GHRawIssue :=
  { id := some 42, number := some 42, title := some "Bug report",
    state := some "open", user_login := some "alice",
    created_at := some "2023-06-10T09:00:00Z",
    updated_at := some "2023-06-15T10:30:00Z", closed_at := none,
    body := "body-created",
    comments_url := "https://api.github.com/repos/octo/demo/issues/7/comments",
    repository_url := "https://api.github.com/repos/octo/demo",
    html_url := some "https://github.com/octo/demo/issues/7",
    pull_request := none }

/-- Raw issue id 42 as the commented-issues facet returns it. -/
def ghIssue42Commented : GHRawIssue :=
  { ghIssue42Created with body := "body-commented" }

def ghAliceComment : GHRawComment :=
  { user_login := some "alice", created_at := some "2023-06-15T10:30:00Z",
    body := "hi" }

/-- The end-to-end scenario-1 server: the created and commented issue facets
both return the raw issue with id 42; every other search is empty. -/
def ghSrvC2 : GHServer :=
  { search := fun _ q =>
      if q = createdIssuesQuery "alice" ⟨2023, 6, 1⟩ ⟨2023, 6, 30⟩ then
        some { items := some [ghIssue42Created] }
      else if q = commentedIssuesQuery "alice" ⟨2023, 6, 1⟩ ⟨2023, 6, 30⟩ then
        some { items := some [ghIssue42Commented] }
      else some { items := some [] },
    comments := fun _ => some [ghAliceComment],
    prDetails := fun _ => none }

/-- The scenario-3 server: the created facet returns issue 42 but every
comment fetch fails. -/
def ghSrvC9 : GHServer :=
  { search := fun _ q =>
      if q = createdIssuesQuery "alice" ⟨2023, 6, 1⟩ ⟨2023, 6, 30⟩ then
        some { items := some [ghIssue42Created] }
      else some { items := some [] },
    comments := fun _ => none,
    prDetails := fun _ => none }

/-- A GitHub server with empty search results everywhere. -/
def ghSrvQuiet : GHServer :=
  { search := fun _ _ => some { items := some [] },
    comments := fun _ => none, prDetails := fun _ => none }

/-- A GitLab server that knows user id 7 and has no data; every notes fetch
fails. -/
def glSrvSeven : GLServer :=
  { users := fun _ => some [{ id := some 7 }],
    issuesPage := fun _ _ => some [], mrsPage := fun _ _ => some [],
    project := fun _ => none, notesPage := fun _ _ _ _ => none }

/-- A raw GitLab item with everything absent. -/
def glItemBare : GLRawItem :=
  { id := none, iid := none, project_id := none, title := none,
    state := none, author_username := none, created_at := none,
    updated_at := none, closed_at := none, merged_at := none,
    description := "", web_url := none }

/-- A Jira server whose every search fails. -/
def jiraSrvQuiet : JiraServer := { searchJql := fun _ => none }

/-! # Theorems -/

/-! ## Dict lemmas -/

theorem dmem_iff {α β : Type} [DecidableEq α] (d : List (α × β)) (k : α) :
    d.any (fun kv => kv.1 == k) = true ↔ k ∈ dkeys d := by
  rw [List.any_eq_true]
  show _ ↔ k ∈ d.map Prod.fst
  constructor
  · rintro ⟨kv, hkv, hp⟩
    exact List.mem_map.mpr ⟨kv, hkv, by simpa using hp⟩
  · intro h
    rcases List.mem_map.mp h with ⟨kv, hkv, hfst⟩
    exact ⟨kv, hkv, by simpa using hfst⟩

theorem find?_append_gen {α : Type} (l l' : List α) (p : α → Bool) :
    (l ++ l').find? p =
      match l.find? p with
      | some x => some x
      | none => l'.find? p := by
  induction l with
  | nil => simp
  | cons hd tl ih =>
    by_cases h : p hd
    · simp [List.find?_cons, h]
    · simp [List.find?_cons, h, ih]

theorem dkeys_map_replace {α β : Type} [DecidableEq α]
    (d : List (α × β)) (k : α) (v : β) :
    dkeys (d.map (fun kv => if kv.1 = k then (k, v) else kv)) = dkeys d := by
  induction d with
  | nil => rfl
  | cons hd tl ih =>
    by_cases h : hd.1 = k
    · simpa [dkeys, h] using ih
    · simpa [dkeys, h] using ih

theorem dkeys_dinsert {α β : Type} [DecidableEq α]
    (d : List (α × β)) (k : α) (v : β) :
    dkeys (dinsert d k v) =
      if k ∈ dkeys d then dkeys d else dkeys d ++ [k] := by
  unfold dinsert
  by_cases h : k ∈ dkeys d
  · rw [if_pos ((dmem_iff d k).mpr h), if_pos h, dkeys_map_replace]
  · rw [if_neg (fun hh => h ((dmem_iff d k).mp hh)), if_neg h]
    simp [dkeys]

theorem mem_dkeys_dinsert {α β : Type} [DecidableEq α]
    (d : List (α × β)) (k k' : α) (v : β) :
    k ∈ dkeys (dinsert d k' v) ↔ k ∈ dkeys d ∨ k = k' := by
  rw [dkeys_dinsert]
  by_cases h : k' ∈ dkeys d
  · rw [if_pos h]
    constructor
    · exact Or.inl
    · rintro (hk | rfl)
      · exact hk
      · exact h
  · rw [if_neg h]
    simp

theorem find?_map_replace_ne {α β : Type} [DecidableEq α]
    (d : List (α × β)) (k k' : α) (v' : β) (hne : k ≠ k') :
    (d.map (fun kv => if kv.1 = k' then (k', v') else kv)).find?
        (fun kv => kv.1 == k) =
      d.find? (fun kv => kv.1 == k) := by
  induction d with
  | nil => rfl
  | cons hd tl ih =>
    by_cases h : hd.1 = k'
    · have hk2 : ¬ k' = k := fun hh => hne hh.symm
      simp [List.find?_cons, h, hk2, ih]
    · by_cases h2 : hd.1 = k
      · simp [List.find?_cons, h2, hne, h]
      · simp [List.find?_cons, h, h2, ih]

theorem find?_map_replace_self {α β : Type} [DecidableEq α]
    (d : List (α × β)) (k : α) (v' : β) (hmem : k ∈ dkeys d) :
    (d.map (fun kv => if kv.1 = k then (k, v') else kv)).find?
        (fun kv => kv.1 == k) = some (k, v') := by
  induction d with
  | nil => simp [dkeys] at hmem
  | cons hd tl ih =>
    by_cases h : hd.1 = k
    · simp [List.find?_cons, h]
    · have : k ∈ dkeys tl := by
        have : k ∈ hd.1 :: dkeys tl := by simpa [dkeys] using hmem
        rcases List.mem_cons.mp this with hh | hh
        · exact absurd hh.symm h
        · exact hh
      simp [List.find?_cons, h, ih this]

theorem dlookup_cons {α β : Type} [DecidableEq α]
    (hd : α × β) (tl : List (α × β)) (k : α) :
    dlookup (hd :: tl) k =
      if hd.1 = k then some hd.2 else dlookup tl k := by
  by_cases h : hd.1 = k <;> simp [dlookup, List.find?_cons, h]

theorem dlookup_eq_none_of_not_mem {α β : Type} [DecidableEq α]
    (d : List (α × β)) (k : α) (h : k ∉ dkeys d) : dlookup d k = none := by
  unfold dlookup
  rw [List.find?_eq_none.mpr]
  · rfl
  · intro kv hkv hp
    exact h (by
      refine (dmem_iff d k).mp ?_
      exact List.any_eq_true.mpr ⟨kv, hkv, hp⟩)

theorem dlookup_dinsert {α β : Type} [DecidableEq α]
    (d : List (α × β)) (k k' : α) (v' : β) :
    dlookup (dinsert d k' v') k =
      if k = k' then some v' else dlookup d k := by
  unfold dinsert
  by_cases hany : d.any (fun kv => kv.1 == k') = true
  · rw [if_pos hany]
    by_cases hk : k = k'
    · subst hk
      have hmem : k ∈ dkeys d := (dmem_iff d k).mp hany
      simp [dlookup, find?_map_replace_self d k v' hmem]
    · simp [dlookup, find?_map_replace_ne d k k' v' hk, hk]
  · rw [if_neg hany]
    unfold dlookup
    rw [find?_append_gen]
    by_cases hk : k = k'
    · subst hk
      have hnone : d.find? (fun kv => kv.1 == k) = none := by
        rw [List.find?_eq_none]
        intro kv hkv hp
        exact hany (List.any_eq_true.mpr ⟨kv, hkv, hp⟩)
      simp [hnone, List.find?_cons]
    · have hk' : k' ≠ k := Ne.symm hk
      have hsingle : List.find? (fun kv => kv.1 == k) [(k', v')] = none := by
        simp [List.find?_cons, hk']
      rw [if_neg hk]
      cases h : d.find? (fun kv => kv.1 == k) <;> simp [h, hsingle]

theorem dlookup_dmerge {α β : Type} [DecidableEq α]
    (a b : List (α × β)) (k : α) (hb : (dkeys b).Nodup) :
    dlookup (dmerge a b) k =
      match dlookup b k with
      | some v => some v
      | none => dlookup a k := by
  induction b generalizing a with
  | nil => simp [dmerge, dlookup]
  | cons hd tl ih =>
    have hnotin : hd.1 ∉ dkeys tl := by
      have := hb
      simp [dkeys] at this
      exact (by simpa [dkeys] using this.1)
    have htl : (dkeys tl).Nodup := by
      have := hb
      simp [dkeys] at this
      simpa [dkeys] using this.2
    show dlookup (dmerge (dinsert a hd.1 hd.2) tl) k = _
    rw [ih _ htl, dlookup_cons]
    by_cases hk : hd.1 = k
    · subst hk
      rw [dlookup_eq_none_of_not_mem tl hd.1 hnotin]
      simp [dlookup_dinsert]
    · have hk' : ¬ k = hd.1 := fun hh => hk hh.symm
      cases h : dlookup tl k <;> simp [hk, hk', dlookup_dinsert, h]

theorem mem_dkeys_dmerge {α β : Type} [DecidableEq α]
    (a b : List (α × β)) (k : α) :
    k ∈ dkeys (dmerge a b) ↔ k ∈ dkeys a ∨ k ∈ dkeys b := by
  induction b generalizing a with
  | nil => simp [dmerge, dkeys]
  | cons hd tl ih =>
    show k ∈ dkeys (dmerge (dinsert a hd.1 hd.2) tl) ↔ _
    rw [ih, mem_dkeys_dinsert]
    have : k ∈ dkeys (hd :: tl) ↔ k = hd.1 ∨ k ∈ dkeys tl := by
      simp [dkeys, List.mem_cons]
    rw [this]
    tauto

theorem dinsert_mem_self {α β : Type} [DecidableEq α]
    (d : List (α × β)) (k : α) (v : β) (hmem : (k, v) ∈ d)
    (hnd : (dkeys d).Nodup) : dinsert d k v = d := by
  unfold dinsert
  rw [if_pos (List.any_eq_true.mpr ⟨(k, v), hmem, by simp⟩)]
  have hinj := List.inj_on_of_nodup_map (f := Prod.fst) (by simpa [dkeys] using hnd)
  conv_rhs => rw [← List.map_id d]
  apply List.map_congr_left
  intro kv hkv
  by_cases h : kv.1 = k
  · have : kv = (k, v) := hinj hkv hmem (by simpa using h)
    simp [this]
  · simp [h]

theorem dmerge_self {α β : Type} [DecidableEq α]
    (m : List (α × β)) (hnd : (dkeys m).Nodup) : dmerge m m = m := by
  suffices h : ∀ b : List (α × β), (∀ kv ∈ b, kv ∈ m) → dmerge m b = m from
    h m (fun _ hkv => hkv)
  intro b
  induction b with
  | nil => intro _; rfl
  | cons hd tl ih =>
    intro hsub
    show dmerge (dinsert m hd.1 hd.2) tl = m
    rw [dinsert_mem_self m hd.1 hd.2 (hsub hd (List.mem_cons_self hd tl)) hnd]
    exact ih (fun kv hkv => hsub kv (List.mem_cons_of_mem hd hkv))

example : fromisoformat "2023-06-15T10:30:00+00:00" = some ⟨2023, 6, 15, 10, 30, 0⟩ := by decide
example : fromisoformat "not-a-date" = none := by decide
example : formatDate (some "2023-06-15T10:30:00Z") = some "15-06-2023 10:30" := by decide
example : formatDate (some "not-a-date") = some "not-a-date" := by decide
example : fromisoformat "2023-06-15" = some ⟨2023, 6, 15, 0, 0, 0⟩ := by decide
example : fromisoformat "2023-02-30" = none := by decide
example : fromisoformat "2024-02-29T23:59:59.123456-05:00" = some ⟨2024, 2, 29, 23, 59, 59⟩ := by decide


theorem hasUserComment_iff (cs : List GHRawComment) (u : String) (s t : Date) :
    hasUserCommentInTimeframe cs u s t = true ↔
      ∃ c ∈ cs, c.user_login = some u ∧ c.created_at.getD "" ≠ "" ∧
        ∃ dt, fromisoformat (replaceZUTC (c.created_at.getD "")) = some dt ∧
          Date.leb s dt.date = true ∧ Date.leb dt.date t = true := by
  induction cs with
  | nil => simp [hasUserCommentInTimeframe]
  | cons c rest ih =>
    simp only [hasUserCommentInTimeframe]
    by_cases h1 : c.user_login = some u
    · rw [if_neg (fun hh => hh h1)]
      by_cases h2 : c.created_at.getD "" = ""
      · rw [if_pos h2, ih]
        constructor
        · rintro ⟨c', hc', hrest⟩
          exact ⟨c', List.mem_cons_of_mem c hc', hrest⟩
        · rintro ⟨c', hc', hlogin, hca, hdt⟩
          rcases List.mem_cons.mp hc' with rfl | hmem
          · exact absurd h2 hca
          · exact ⟨c', hmem, hlogin, hca, hdt⟩
      · rw [if_neg h2]
        cases hp : fromisoformat (replaceZUTC (c.created_at.getD "")) with
        | none =>
          dsimp only
          rw [ih]
          constructor
          · rintro ⟨c', hc', hrest⟩
            exact ⟨c', List.mem_cons_of_mem c hc', hrest⟩
          · rintro ⟨c', hc', hlogin, hca, dt, hdt, hle⟩
            rcases List.mem_cons.mp hc' with rfl | hmem
            · rw [hp] at hdt
              exact absurd hdt (by simp)
            · exact ⟨c', hmem, hlogin, hca, dt, hdt, hle⟩
        | some dt =>
          dsimp only
          by_cases hr : (Date.leb s dt.date && Date.leb dt.date t) = true
          · rw [if_pos hr]
            rw [Bool.and_eq_true] at hr
            constructor
            · intro _
              exact ⟨c, List.mem_cons_self c rest, h1, h2, dt, hp, hr.1, hr.2⟩
            · intro _
              rfl
          · rw [if_neg hr, ih]
            constructor
            · rintro ⟨c', hc', hrest⟩
              exact ⟨c', List.mem_cons_of_mem c hc', hrest⟩
            · rintro ⟨c', hc', hlogin, hca, dt', hdt, hle1, hle2⟩
              rcases List.mem_cons.mp hc' with rfl | hmem
              · rw [hp] at hdt
                injection hdt with hdd
                subst hdd
                exact absurd (by rw [Bool.and_eq_true]; exact ⟨hle1, hle2⟩) hr
              · exact ⟨c', hmem, hlogin, hca, dt', hdt, hle1, hle2⟩
    · rw [if_pos h1, ih]
      constructor
      · rintro ⟨c', hc', hrest⟩
        exact ⟨c', List.mem_cons_of_mem c hc', hrest⟩
      · rintro ⟨c', hc', hlogin, hrest⟩
        rcases List.mem_cons.mp hc' with rfl | hmem
        · exact absurd hlogin h1
        · exact ⟨c', hmem, hlogin, hrest⟩

theorem hasUserNote_iff (ns : List GLRawNote) (u : String) (s t : Date) :
    hasUserNoteInTimeframe ns u s t = true ↔
      ∃ n ∈ ns, n.author_username = some u ∧ n.created_at.getD "" ≠ "" ∧
        ∃ dt, fromisoformat (replaceZUTC (n.created_at.getD "")) = some dt ∧
          Date.leb s dt.date = true ∧ Date.leb dt.date t = true := by
  induction ns with
  | nil => simp [hasUserNoteInTimeframe]
  | cons c rest ih =>
    simp only [hasUserNoteInTimeframe]
    by_cases h1 : c.author_username = some u
    · rw [if_neg (fun hh => hh h1)]
      by_cases h2 : c.created_at.getD "" = ""
      · rw [if_pos h2, ih]
        constructor
        · rintro ⟨c', hc', hrest⟩
          exact ⟨c', List.mem_cons_of_mem c hc', hrest⟩
        · rintro ⟨c', hc', hlogin, hca, hdt⟩
          rcases List.mem_cons.mp hc' with rfl | hmem
          · exact absurd h2 hca
          · exact ⟨c', hmem, hlogin, hca, hdt⟩
      · rw [if_neg h2]
        cases hp : fromisoformat (replaceZUTC (c.created_at.getD "")) with
        | none =>
          dsimp only
          rw [ih]
          constructor
          · rintro ⟨c', hc', hrest⟩
            exact ⟨c', List.mem_cons_of_mem c hc', hrest⟩
          · rintro ⟨c', hc', hlogin, hca, dt, hdt, hle⟩
            rcases List.mem_cons.mp hc' with rfl | hmem
            · rw [hp] at hdt
              exact absurd hdt (by simp)
            · exact ⟨c', hmem, hlogin, hca, dt, hdt, hle⟩
        | some dt =>
          dsimp only
          by_cases hr : (Date.leb s dt.date && Date.leb dt.date t) = true
          · rw [if_pos hr]
            rw [Bool.and_eq_true] at hr
            constructor
            · intro _
              exact ⟨c, List.mem_cons_self c rest, h1, h2, dt, hp, hr.1, hr.2⟩
            · intro _
              rfl
          · rw [if_neg hr, ih]
            constructor
            · rintro ⟨c', hc', hrest⟩
              exact ⟨c', List.mem_cons_of_mem c hc', hrest⟩
            · rintro ⟨c', hc', hlogin, hca, dt', hdt, hle1, hle2⟩
              rcases List.mem_cons.mp hc' with rfl | hmem
              · rw [hp] at hdt
                injection hdt with hdd
                subst hdd
                exact absurd (by rw [Bool.and_eq_true]; exact ⟨hle1, hle2⟩) hr
              · exact ⟨c', hmem, hlogin, hca, dt', hdt, hle1, hle2⟩
    · rw [if_pos h1, ih]
      constructor
      · rintro ⟨c', hc', hrest⟩
        exact ⟨c', List.mem_cons_of_mem c hc', hrest⟩
      · rintro ⟨c', hc', hlogin, hrest⟩
        rcases List.mem_cons.mp hc' with rfl | hmem
        · exact absurd hlogin h1
        · exact ⟨c', hmem, hlogin, hrest⟩


/-! ## Claim theorems -/

/-- C1, counterexample: merging the facet maps `{A: {1 ↦ 10, 2 ↦ 20}}` and
`{B: {2 ↦ 99, 3 ↦ 30}}` in order A, B with the source's dict-spread merge
(`{**a, **b}`) retains B's copy of key 2, not A's — "first occurrence wins"
is false (the key keeps A's position but takes B's record). -/
theorem claim_C1_counterexample :
    dmerge ([(1, 10), (2, 20)] : List (Nat × Nat)) [(2, 99), (3, 30)] =
        [(1, 10), (2, 99), (3, 30)] ∧
      dlookup ([(1, 10), (2, 20)] : List (Nat × Nat)) 2 = some 20 ∧
      dlookup (dmerge ([(1, 10), (2, 20)] : List (Nat × Nat)) [(2, 99), (3, 30)]) 2 =
        some 99 ∧
      dlookup (dmerge ([(1, 10), (2, 20)] : List (Nat × Nat)) [(2, 99), (3, 30)]) 2 ≠
        some 20 := by
  decide

/-- C1 (amended): merging per-facet result maps with the source's dict-spread
fold, the LAST facet to contribute a given key supplies the record retained
(earlier facets fix only the key's position); the merge is idempotent; and
the merged key set equals the union of the facets' key sets. -/
theorem claim_C1 (α β : Type) [DecidableEq α] (a b m : List (α × β)) (k : α)
    (hb : (dkeys b).Nodup) (hm : (dkeys m).Nodup) :
    (dlookup (dmerge a b) k =
      match dlookup b k with
      | some v => some v
      | none => dlookup a k) ∧
    (k ∈ dkeys (dmerge a b) ↔ k ∈ dkeys a ∨ k ∈ dkeys b) ∧
    dmerge m m = m :=
  ⟨dlookup_dmerge a b k hb, mem_dkeys_dmerge a b k, dmerge_self m hm⟩

/-- Witness for C1 at the claim's own example. -/
theorem claim_C1_witness :
    (dkeys ([(2, 99), (3, 30)] : List (Nat × Nat))).Nodup ∧
    (dkeys ([(1, 10), (2, 20)] : List (Nat × Nat))).Nodup ∧
    ((dlookup (dmerge ([(1, 10), (2, 20)] : List (Nat × Nat)) [(2, 99), (3, 30)]) 2 =
        match dlookup ([(2, 99), (3, 30)] : List (Nat × Nat)) 2 with
        | some v => some v
        | none => dlookup ([(1, 10), (2, 20)] : List (Nat × Nat)) 2) ∧
      (2 ∈ dkeys (dmerge ([(1, 10), (2, 20)] : List (Nat × Nat)) [(2, 99), (3, 30)]) ↔
        2 ∈ dkeys ([(1, 10), (2, 20)] : List (Nat × Nat)) ∨
          2 ∈ dkeys ([(2, 99), (3, 30)] : List (Nat × Nat))) ∧
      dmerge ([(1, 10), (2, 20)] : List (Nat × Nat)) [(1, 10), (2, 20)] =
        [(1, 10), (2, 20)]) :=
  ⟨by decide, by decide,
    claim_C1 Nat Nat [(1, 10), (2, 20)] [(2, 99), (3, 30)] [(1, 10), (2, 20)] 2
      (by decide) (by decide)⟩

/-- C7: the comment-timeframe validators of the GitHub and GitLab adapters
return true iff some entry has the target author and a present, parseable
creation timestamp whose date component lies in `[since, until]` inclusive;
entries with missing or unparseable timestamps never count as matches. -/
theorem claim_C7 (u : String) (s t : Date) :
    (∀ cs : List GHRawComment,
      hasUserCommentInTimeframe cs u s t = true ↔
        ∃ c ∈ cs, c.user_login = some u ∧ c.created_at.getD "" ≠ "" ∧
          ∃ dt, fromisoformat (replaceZUTC (c.created_at.getD "")) = some dt ∧
            Date.leb s dt.date = true ∧ Date.leb dt.date t = true) ∧
    (∀ ns : List GLRawNote,
      hasUserNoteInTimeframe ns u s t = true ↔
        ∃ n ∈ ns, n.author_username = some u ∧ n.created_at.getD "" ≠ "" ∧
          ∃ dt, fromisoformat (replaceZUTC (n.created_at.getD "")) = some dt ∧
            Date.leb s dt.date = true ∧ Date.leb dt.date t = true) :=
  ⟨fun cs => hasUserComment_iff cs u s t, fun ns => hasUserNote_iff ns u s t⟩

/-- C8: `_format_date` renders `2023-06-15T10:30:00Z` (with `Z` read as
`+00:00`) as `15-06-2023 10:30`, returns any unparseable non-empty input
unchanged, and never drops it. -/
theorem claim_C8 :
    formatDate (some "2023-06-15T10:30:00Z") = some "15-06-2023 10:30" ∧
    formatDate (some "not-a-date") = some "not-a-date" ∧
    ∀ s : String, s ≠ "" → fromisoformat (replaceZUTC s) = none →
      formatDate (some s) = some s := by
  refine ⟨by decide, by decide, ?_⟩
  intro s hne hparse
  simp [formatDate, hne, hparse]

/-- Witness for C8's general fallback clause at a concrete unparseable
input. -/
theorem claim_C8_witness :
    ("2023-06-15X" ≠ "" ∧ fromisoformat (replaceZUTC "2023-06-15X") = none) ∧
      formatDate (some "2023-06-15X") = some "2023-06-15X" :=
  ⟨⟨by decide, by decide⟩, claim_C8.2.2 "2023-06-15X" (by decide) (by decide)⟩


/-! ## Pagination lemmas -/

theorem paginateAux_honest {A : Type} (allItems : List A) (mk : Nat → GLCall) :
    ∀ (fuel page : Nat) (acc : List A) (calls : List GLCall),
      1 ≤ page →
      (allItems.drop ((page - 1) * 100)).length / 100 + 1 ≤ fuel →
      paginateAux (fun p => some (pageSlice allItems p)) mk fuel page acc
          calls =
        (acc ++ allItems.drop ((page - 1) * 100),
         calls ++
           (List.range' page
             ((allItems.drop ((page - 1) * 100)).length / 100 + 1)).map mk) := by
  intro fuel
  induction fuel with
  | zero => intro page acc calls hp hf; omega
  | succ fuel ih =>
    intro page acc calls hp hf
    have hslice : pageSlice allItems page =
        (allItems.drop ((page - 1) * 100)).take 100 := rfl
    simp only [paginateAux, hslice]
    rcases hrest : allItems.drop ((page - 1) * 100) with _ | ⟨x, rest'⟩
    · simp [hrest, List.range']
    · rw [hrest] at hf
      by_cases hlen : (x :: rest').length < 100
      · have htake : (x :: rest').take 100 = x :: rest' :=
          List.take_of_length_le (Nat.le_of_lt hlen)
        have hdiv : (x :: rest').length / 100 = 0 := Nat.div_eq_of_lt hlen
        have hlen' : rest'.length + 1 < 100 := by simpa using hlen
        simp [htake, hlen', hdiv, Nat.div_eq_of_lt hlen', List.range']
      · push_neg at hlen
        have htlen : ((x :: rest').take 100).length = 100 := by
          rw [List.length_take]
          omega
        have hne : ((x :: rest').take 100).isEmpty = false := by
          rcases h100 : (x :: rest').take 100 with _ | _
          · rw [h100] at htlen
            simp at htlen
          · rfl
        have hnlt : ¬ ((x :: rest').take 100).length < 100 := by omega
        rw [if_neg (by simp [hne]), if_neg hnlt]
        have hdropstep : allItems.drop ((page + 1 - 1) * 100) =
            (x :: rest').drop 100 := by
          rw [← hrest, List.drop_drop]
          congr 1
          omega
        have hlen2 : ((x :: rest').drop 100).length =
            (x :: rest').length - 100 := by simp
        have hdiv : (x :: rest').length / 100 =
            ((x :: rest').length - 100) / 100 + 1 :=
          Nat.div_eq_sub_div (by norm_num) hlen
        have hfit : (allItems.drop ((page + 1 - 1) * 100)).length / 100 + 1 ≤
            fuel := by
          rw [hdropstep, hlen2]
          omega
        rw [ih (page + 1) (acc ++ (x :: rest').take 100)
          (calls ++ [mk page]) (by omega) hfit]
        rw [hdropstep, hlen2]
        simp only [Prod.mk.injEq]
        constructor
        · rw [List.append_assoc, List.take_append_drop]
        · rw [hdiv]
          rw [show ((x :: rest').length - 100) / 100 + 1 + 1 =
            (((x :: rest').length - 100) / 100 + 1) + 1 from rfl]
          rw [List.range'_succ page (((x :: rest').length - 100) / 100 + 1) 1]
          simp [List.append_assoc]

theorem paginateAux_err {A : Type} (allItems : List A) (e : Nat)
    (mk : Nat → GLCall) :
    ∀ (fuel page : Nat) (acc : List A) (calls : List GLCall),
      1 ≤ page → page ≤ e → e ≤ allItems.length / 100 + 1 → e - page < fuel →
      paginateAux (fun p => if p = e then none else some (pageSlice allItems p))
          mk fuel page acc calls =
        (acc ++ (allItems.drop ((page - 1) * 100)).take ((e - page) * 100),
         calls ++ (List.range' page (e - page + 1)).map mk) := by
  intro fuel
  induction fuel with
  | zero => intro page acc calls h1 h2 h3 h4; omega
  | succ fuel ih =>
    intro page acc calls h1 h2 h3 h4
    by_cases hpe : page = e
    · subst hpe
      simp [paginateAux, List.range']
    · have hlt : page < e := Nat.lt_of_le_of_ne h2 hpe
      have hple : page ≤ allItems.length / 100 := by omega
      have hmul : page * 100 ≤ allItems.length :=
        (Nat.le_div_iff_mul_le (by norm_num)).mp hple
      have hrlen : (allItems.drop ((page - 1) * 100)).length =
          allItems.length - (page - 1) * 100 := by simp
      have hfull : 100 ≤ (allItems.drop ((page - 1) * 100)).length := by
        rw [hrlen]
        omega
      have htlen : ((allItems.drop ((page - 1) * 100)).take 100).length =
          100 := by
        rw [List.length_take]
        omega
      have hne : ((allItems.drop ((page - 1) * 100)).take 100).isEmpty =
          false := by
        rcases h100 : (allItems.drop ((page - 1) * 100)).take 100 with _ | _
        · rw [h100] at htlen
          simp at htlen
        · rfl
      have hslice : pageSlice allItems page =
          (allItems.drop ((page - 1) * 100)).take 100 := rfl
      simp only [paginateAux, if_neg hpe, hslice]
      rw [if_neg (by simp [hne]), if_neg (by omega)]
      have hdropstep : allItems.drop ((page + 1 - 1) * 100) =
          (allItems.drop ((page - 1) * 100)).drop 100 := by
        rw [List.drop_drop]
        congr 1
        omega
      rw [ih (page + 1) (acc ++ (allItems.drop ((page - 1) * 100)).take 100)
        (calls ++ [mk page]) (by omega) (by omega) h3 (by omega)]
      simp only [Prod.mk.injEq]
      constructor
      · rw [List.append_assoc, hdropstep]
        congr 1
        rw [← List.take_add]
        congr 1
        omega
      · rw [show e - page + 1 = (e - (page + 1) + 1) + 1 by omega]
        rw [List.range'_succ page (e - (page + 1) + 1) 1]
        simp [List.append_assoc]

/-! ## More claim theorems -/

/-- C3, counterexample: with zero available items the paginator still issues
one page request, while `ceil(0/100) = 0`; so "exactly `ceil(N/P)` page
requests" fails. -/
theorem claim_C3_counterexample :
    (makePaginatedRequest (fun p => some (pageSlice ([] : List Nat) p))
        (GLCall.issuesPage []) 3).2.length = 1 ∧
      (([] : List Nat).length + 99) / 100 = 0 ∧ (1 : Nat) ≠ 0 := by
  refine ⟨rfl, by decide, by decide⟩

/-- C3 (amended): for the fixed page size 100, against a server holding `N`
items the paginator issues exactly `N / 100 + 1` page requests — `ceil(N/100)`
when `100 ∤ N`, one more when `100 ∣ N` (including one request for `N = 0`) —
and returns all `N` items in fetch order, stopping at the first empty or
short page; if the request for page `e` errors, it stops there and returns
the items accumulated from the earlier pages. -/
theorem claim_C3 {A : Type} (allItems : List A) (mk : Nat → GLCall)
    (fuel e : Nat) (hfuel : allItems.length / 100 + 1 ≤ fuel) (he1 : 1 ≤ e)
    (he2 : e ≤ allItems.length / 100 + 1) (hefuel : e - 1 < fuel) :
    (makePaginatedRequest (fun p => some (pageSlice allItems p)) mk fuel =
      (allItems, (List.range' 1 (allItems.length / 100 + 1)).map mk)) ∧
    (makePaginatedRequest
        (fun p => if p = e then none else some (pageSlice allItems p)) mk
        fuel =
      (allItems.take ((e - 1) * 100), (List.range' 1 e).map mk)) := by
  constructor
  · have h := paginateAux_honest allItems mk fuel 1 [] [] (le_refl 1)
      (by simpa using hfuel)
    simpa [makePaginatedRequest] using h
  · have h := paginateAux_err allItems e mk fuel 1 [] [] (le_refl 1) he1 he2
      hefuel
    rw [show e - 1 + 1 = e from by omega] at h
    simpa [makePaginatedRequest] using h

set_option maxRecDepth 8000 in
/-- Witness for C3 with 150 items and an error injected at page 1. -/
theorem claim_C3_witness :
    ((List.range 150).length / 100 + 1 ≤ 3 ∧ 1 ≤ 1 ∧
      1 ≤ (List.range 150).length / 100 + 1 ∧ 1 - 1 < 3) ∧
    ((makePaginatedRequest (fun p => some (pageSlice (List.range 150) p))
        (GLCall.issuesPage []) 3 =
      (List.range 150,
        (List.range' 1 ((List.range 150).length / 100 + 1)).map
          (GLCall.issuesPage []))) ∧
    (makePaginatedRequest
        (fun p => if p = 1 then none else some (pageSlice (List.range 150) p))
        (GLCall.issuesPage []) 3 =
      ((List.range 150).take ((1 - 1) * 100),
        (List.range' 1 1).map (GLCall.issuesPage [])))) :=
  ⟨⟨by decide, by decide, by decide, by decide⟩,
    claim_C3 (List.range 150) (GLCall.issuesPage []) 3 1 (by decide)
      (by decide) (by decide) (by decide)⟩

/-- C6: when the GitLab identity lookup returns no users, `process` returns
exactly the error payload `{"error": "Could not retrieve user ID"}` and the
request trace contains only the lookup itself — no facet query or other
request follows. -/
theorem claim_C6 (srv : GLServer) (fuel : Nat) (u : String) (s t : Date)
    (h : srv.users u = some []) :
    gitlabProcess srv fuel u s t =
      (JVal.obj [("error", JVal.str "Could not retrieve user ID")],
       [GLCall.usersQ u]) := by
  simp [gitlabProcess, getUserId, h]

/-- Witness for C6 with a concrete server that knows no user `bob`. -/
theorem claim_C6_witness :
    (({ users := fun _ => some [], issuesPage := fun _ _ => none,
        mrsPage := fun _ _ => none, project := fun _ => none,
        notesPage := fun _ _ _ _ => none } : GLServer).users "bob" =
      some []) ∧
    gitlabProcess
        { users := fun _ => some [], issuesPage := fun _ _ => none,
          mrsPage := fun _ _ => none, project := fun _ => none,
          notesPage := fun _ _ _ _ => none } 5 "bob" ⟨2023, 6, 1⟩
        ⟨2023, 6, 30⟩ =
      (JVal.obj [("error", JVal.str "Could not retrieve user ID")],
       [GLCall.usersQ "bob"]) :=
  ⟨rfl,
    claim_C6
      { users := fun _ => some [], issuesPage := fun _ _ => none,
        mrsPage := fun _ _ => none, project := fun _ => none,
        notesPage := fun _ _ _ _ => none } 5 "bob" ⟨2023, 6, 1⟩ ⟨2023, 6, 30⟩
      rfl⟩


/-! ## Parser bounds and output format -/

theorem digitVal_le (c : Char) (x : Nat) (h : digitVal c = some x) :
    x ≤ 9 := by
  unfold digitVal at h
  split at h
  · injection h with h
    omega
  · cases h

theorem parse2_lt (cs : List Char) (n : Nat) (r : List Char)
    (h : parse2 cs = some (n, r)) : n < 100 := by
  cases cs with
  | nil => simp [parse2] at h
  | cons a tail =>
    cases tail with
    | nil => simp [parse2] at h
    | cons b rest =>
      cases ha : digitVal a with
      | none =>
        simp only [parse2] at h
        rw [ha] at h
        simp at h
      | some x =>
        cases hb : digitVal b with
        | none =>
          simp only [parse2] at h
          rw [ha, hb] at h
          simp at h
        | some y =>
          simp only [parse2] at h
          rw [ha, hb] at h
          simp only [Option.some.injEq, Prod.mk.injEq] at h
          have hx := digitVal_le a x ha
          have hy := digitVal_le b y hb
          omega

theorem parse4_lt (cs : List Char) (n : Nat) (r : List Char)
    (h : parse4 cs = some (n, r)) : n < 10000 := by
  cases cs with
  | nil => simp [parse4] at h
  | cons a t1 =>
    cases t1 with
    | nil => simp [parse4] at h
    | cons b t2 =>
      cases t2 with
      | nil => simp [parse4] at h
      | cons c t3 =>
        cases t3 with
        | nil => simp [parse4] at h
        | cons d rest =>
          cases ha : digitVal a with
          | none =>
            simp only [parse4] at h
            rw [ha] at h
            simp at h
          | some x =>
            cases hb : digitVal b with
            | none =>
              simp only [parse4] at h
              rw [ha, hb] at h
              simp at h
            | some y =>
              cases hc : digitVal c with
              | none =>
                simp only [parse4] at h
                rw [ha, hb, hc] at h
                simp at h
              | some z =>
                cases hd : digitVal d with
                | none =>
                  simp only [parse4] at h
                  rw [ha, hb, hc, hd] at h
                  simp at h
                | some w =>
                  simp only [parse4] at h
                  rw [ha, hb, hc, hd] at h
                  simp only [Option.some.injEq, Prod.mk.injEq] at h
                  have hx := digitVal_le a x ha
                  have hy := digitVal_le b y hb
                  have hz := digitVal_le c z hc
                  have hw := digitVal_le d w hd
                  omega

theorem parseTimeTail_bounds (cs : List Char) (h mi sec : Nat)
    (hp : parseTimeTail cs = some (h, mi, sec)) :
    h ≤ 23 ∧ mi ≤ 59 ∧ sec ≤ 59 := by
  unfold parseTimeTail at hp
  repeat' split at hp
  all_goals
    first
      | (simp only [Option.some.injEq, Prod.mk.injEq] at hp
         obtain ⟨rfl, rfl, rfl⟩ := hp
         omega)
      | cases hp

theorem daysInMonth_le (y m : Nat) : daysInMonth y m ≤ 31 := by
  unfold daysInMonth
  split
  · split <;> omega
  · split <;> omega

theorem fromisoformat_bounds (s : String) (dt : DateTime)
    (hp : fromisoformat s = some dt) :
    dt.year < 10000 ∧ dt.month < 100 ∧ dt.day < 100 ∧ dt.hour < 100 ∧
      dt.minute < 100 := by
  unfold fromisoformat at hp
  simp only [Option.bind_eq_some] at hp
  obtain ⟨⟨y, cs1⟩, h4, cs2, hm, ⟨mo, cs3⟩, h2, cs4, hm2, ⟨d, cs5⟩, h3,
    hp⟩ := hp
  have hy := parse4_lt _ _ _ h4
  have hdm := daysInMonth_le y mo
  split at hp
  · rename_i hcond
    split at hp
    · injection hp with hp
      subst hp
      refine ⟨hy, ?_, ?_, ?_, ?_⟩ <;> (dsimp only at hcond ⊢; omega)
    · rename_i sep rest
      split at hp
      · simp only [Option.map_eq_some'] at hp
        obtain ⟨⟨hh, mi2, sec2⟩, ht, hp⟩ := hp
        have hb := parseTimeTail_bounds _ _ _ _ ht
        subst hp
        refine ⟨hy, ?_, ?_, ?_, ?_⟩ <;> (dsimp only at hcond ⊢; omega)
      · cases hp
  · cases hp


theorem pad2_spec :
    ∀ n : Nat, n < 100 →
      (pad2 n).length = 2 ∧ (pad2 n).toList.all Char.isDigit = true := by
  decide

theorem pad2_chars (n : Nat) (h : n < 100) :
    ∃ a b, (pad2 n).toList = [a, b] ∧ a.isDigit = true ∧
      b.isDigit = true := by
  obtain ⟨hl, hd⟩ := pad2_spec n h
  have hl2 : (pad2 n).toList.length = 2 := hl
  obtain ⟨a, b, hab⟩ := List.length_eq_two.mp hl2
  rw [hab] at hd
  simp only [List.all_cons, List.all_nil, Bool.and_true, Bool.and_eq_true]
    at hd
  exact ⟨a, b, hab, hd.1, hd.2⟩

theorem strftime_format (dt : DateTime) (h1 : dt.day < 100)
    (h2 : dt.month < 100) (h3 : dt.year < 10000) (h4 : dt.hour < 100)
    (h5 : dt.minute < 100) : isDDMMYYYYHHMM (strftimeOut dt) = true := by
  obtain ⟨d1, d2, hd, hd1, hd2⟩ := pad2_chars dt.day h1
  obtain ⟨m1, m2, hm, hm1, hm2⟩ := pad2_chars dt.month h2
  obtain ⟨y1, y2, hya, hy1, hy2⟩ := pad2_chars (dt.year / 100) (by omega)
  obtain ⟨y3, y4, hyb, hy3, hy4⟩ :=
    pad2_chars (dt.year % 100) (Nat.mod_lt _ (by norm_num))
  obtain ⟨e1, e2, he, he1, he2⟩ := pad2_chars dt.hour h4
  obtain ⟨n1, n2, hn, hn1, hn2⟩ := pad2_chars dt.minute h5
  have hout : (strftimeOut dt).toList =
      [d1, d2, '-', m1, m2, '-', y1, y2, y3, y4, ' ', e1, e2, ':',
        n1, n2] := by
    simp only [strftimeOut, pad4, String.toList, String.data_append]
    rw [show (pad2 dt.day).data = [d1, d2] from hd,
      show (pad2 dt.month).data = [m1, m2] from hm,
      show (pad2 (dt.year / 100)).data = [y1, y2] from hya,
      show (pad2 (dt.year % 100)).data = [y3, y4] from hyb,
      show (pad2 dt.hour).data = [e1, e2] from he,
      show (pad2 dt.minute).data = [n1, n2] from hn]
    rfl
  unfold isDDMMYYYYHHMM
  rw [hout]
  simp [hd1, hd2, hm1, hm2, hy1, hy2, hy3, hy4, he1, he2, hn1, hn2]


/-- C5, counterexample: a malformed Jira comment timestamp is replaced by
the placeholder `"Unknown"`, not left as the original raw string. -/
theorem claim_C5_counterexample :
    extractComments
        [{ author_displayName := some "bob", created := some "not-a-date",
           body := some "x" }] =
      [{ author := "bob", created := "Unknown", body := "x" }] ∧
    ("Unknown" : String) ≠ "not-a-date" := by
  exact ⟨by decide, by decide⟩

/-- C5 (amended): in the GitHub and GitLab adapters a malformed timestamp
falls back to the original raw string; in the Jira adapter it becomes the
placeholder `"Unknown"`; every successfully parsed date field is rendered in
`DD-MM-YYYY HH:MM` format. -/
theorem claim_C5 (s ts : String) (dt : DateTime) (hs : s ≠ "")
    (hfail : fromisoformat (replaceZUTC s) = none) (hts : ts ≠ "")
    (hok : fromisoformat (replaceZUTC ts) = some dt) :
    (formatDate (some s) = some s ∧ jiraFormatCreated s = "Unknown") ∧
    (formatDate (some ts) = some (strftimeOut dt) ∧
      jiraFormatCreated ts = strftimeOut dt ∧
      isDDMMYYYYHHMM (strftimeOut dt) = true) := by
  obtain ⟨b1, b2, b3, b4, b5⟩ := fromisoformat_bounds _ _ hok
  refine ⟨⟨?_, ?_⟩, ?_, ?_, ?_⟩
  · simp [formatDate, hs, hfail]
  · simp [jiraFormatCreated, hs, hfail]
  · simp [formatDate, hts, hok]
  · simp [jiraFormatCreated, hts, hok]
  · exact strftime_format dt b3 b2 b1 b4 b5

/-- Witness for C5 at `"not-a-date"` and `2023-06-15T10:30:00Z`. -/
theorem claim_C5_witness :
    ("not-a-date" ≠ "" ∧ fromisoformat (replaceZUTC "not-a-date") = none ∧
      "2023-06-15T10:30:00Z" ≠ "" ∧
      fromisoformat (replaceZUTC "2023-06-15T10:30:00Z") =
        some ⟨2023, 6, 15, 10, 30, 0⟩) ∧
    ((formatDate (some "not-a-date") = some "not-a-date" ∧
        jiraFormatCreated "not-a-date" = "Unknown") ∧
      (formatDate (some "2023-06-15T10:30:00Z") =
          some (strftimeOut ⟨2023, 6, 15, 10, 30, 0⟩) ∧
        jiraFormatCreated "2023-06-15T10:30:00Z" =
          strftimeOut ⟨2023, 6, 15, 10, 30, 0⟩ ∧
        isDDMMYYYYHHMM (strftimeOut ⟨2023, 6, 15, 10, 30, 0⟩) = true)) :=
  ⟨⟨by decide, by decide, by decide, by decide⟩,
    claim_C5 "not-a-date" "2023-06-15T10:30:00Z" ⟨2023, 6, 15, 10, 30, 0⟩
      (by decide) (by decide) (by decide) (by decide)⟩

/-- C2, counterexample: with both the created and commented facets returning
the raw issue with id 42, the report `process` builds has no `issues`
category at all (the source's `process` has the issues section commented
out; its activity holds only `pull_requests`). -/
theorem claim_C2_counterexample :
    getUserCreatedIssues ghSrvC2 "alice" ⟨2023, 6, 1⟩ ⟨2023, 6, 30⟩ =
        [(some 42, ghIssue42Created)] ∧
      getUserCommentedIssues ghSrvC2 "alice" ⟨2023, 6, 1⟩ ⟨2023, 6, 30⟩ =
        [(some 42, ghIssue42Commented)] ∧
      (githubProcess ghSrvC2 "alice" ⟨2023, 6, 1⟩ ⟨2023, 6, 30⟩).getField
          "activity" =
        some (JVal.obj [("pull_requests", JVal.arr [])]) ∧
      (JVal.obj [("pull_requests", JVal.arr [])]).getField "issues" =
        none := by
  refine ⟨by decide, by decide, rfl, rfl⟩

/-- C2 (amended): the GitHub report's activity contains only the
`pull_requests` category (no `issues` key, whatever the facets return); the
issues pipeline itself — which `process` does not invoke — deduplicates the
overlapping facets and yields exactly one record with id 42. -/
theorem claim_C2 :
    (∀ (srv : GHServer) (u : String) (s t : Date),
      ((githubProcess srv u s t).getField "activity").map JVal.objKeys =
        some ["pull_requests"]) ∧
    (getUserIssues ghSrvC2 "alice" ⟨2023, 6, 1⟩ ⟨2023, 6, 30⟩).length = 1 ∧
    (getUserIssues ghSrvC2 "alice" ⟨2023, 6, 1⟩ ⟨2023, 6, 30⟩).countP
        (fun r => r.id == some 42) = 1 :=
  ⟨fun _ _ _ _ => rfl, by decide, by decide⟩

/-- C9: a failed comment/note fetch during normalization leaves the record
in the output with `comments = []`, for both the GitHub issue pipeline and
the GitLab `_format_issue` step. -/
theorem claim_C9 (srv : GHServer) (u : String) (s t : Date)
    (issue : GHRawIssue)
    (hmem : issue ∈ dvalues (allUserIssues srv u s t))
    (hfail : srv.comments (strReplace issue.comments_url apiBaseUrl "") =
      none)
    (glsrv : GLServer) (fuel : Nat) (glIssue : GLRawItem)
    (hglfail : glsrv.notesPage false glIssue.project_id glIssue.iid 1 =
      none) :
    (formatIssueGH srv issue ∈ getUserIssues srv u s t ∧
      (formatIssueGH srv issue).comments = []) ∧
    (formatIssueGL glsrv fuel glIssue).1.comments = [] := by
  refine ⟨⟨List.mem_map_of_mem _ hmem, ?_⟩, ?_⟩
  · simp [formatIssueGH, hfail]
  · cases fuel with
    | zero =>
      simp [formatIssueGL, makePaginatedRequest, paginateAux, formatNotes]
    | succ n =>
      simp [formatIssueGL, makePaginatedRequest, paginateAux, hglfail,
        formatNotes]

/-- Witness for C9: scenario-3 servers whose comment and note fetches always
fail. -/
theorem claim_C9_witness :
    (ghIssue42Created ∈
        dvalues (allUserIssues ghSrvC9 "alice" ⟨2023, 6, 1⟩ ⟨2023, 6, 30⟩) ∧
      ghSrvC9.comments
          (strReplace ghIssue42Created.comments_url apiBaseUrl "") = none ∧
      glSrvSeven.notesPage false glItemBare.project_id glItemBare.iid 1 =
        none) ∧
    ((formatIssueGH ghSrvC9 ghIssue42Created ∈
        getUserIssues ghSrvC9 "alice" ⟨2023, 6, 1⟩ ⟨2023, 6, 30⟩ ∧
      (formatIssueGH ghSrvC9 ghIssue42Created).comments = []) ∧
      (formatIssueGL glSrvSeven 4 glItemBare).1.comments = []) :=
  ⟨⟨by decide, rfl, rfl⟩,
    claim_C9 ghSrvC9 "alice" ⟨2023, 6, 1⟩ ⟨2023, 6, 30⟩ ghIssue42Created
      (by decide) rfl glSrvSeven 4 glItemBare rfl⟩

/-- C10: `_search_github` issues exactly one search request with
`per_page = 100` (no pagination loop), so a facet can contribute at most 100
records when the service honors the page size; a successful response without
an `"items"` key yields `[]`, not an error. -/
theorem claim_C10 (srv : GHServer) (st q : String)
    (honors : ∀ resp items, srv.search st q = some resp →
      resp.items = some items → items.length ≤ 100) :
    searchGithubTrace st q = [searchGithubRequest st q] ∧
    (searchGithubRequest st q).per_page = 100 ∧
    ((searchGithub srv st q).getD []).length ≤ 100 ∧
    (∀ resp, srv.search st q = some resp → resp.items = none →
      searchGithub srv st q = some []) := by
  refine ⟨rfl, rfl, ?_, ?_⟩
  · cases h : srv.search st q with
    | none => simp [searchGithub, h]
    | some resp =>
      cases hi : resp.items with
      | none => simp [searchGithub, h, hi]
      | some items =>
        have hb := honors resp items h hi
        simpa [searchGithub, h, hi] using hb
  · intro resp h hi
    simp [searchGithub, h, hi]

/-- Witness for C10 with a server whose search responses carry no `"items"`
key. -/
theorem claim_C10_witness :
    (∀ resp items,
      ({ search := fun _ _ => some { items := none },
         comments := fun _ => none,
         prDetails := fun _ => none } : GHServer).search "issues" "q0" =
          some resp →
        resp.items = some items → items.length ≤ 100) ∧
    (searchGithubTrace "issues" "q0" =
        [searchGithubRequest "issues" "q0"] ∧
      (searchGithubRequest "issues" "q0").per_page = 100 ∧
      ((searchGithub
          { search := fun _ _ => some { items := none },
            comments := fun _ => none,
            prDetails := fun _ => none } "issues" "q0").getD []).length ≤
        100 ∧
      (∀ resp,
        ({ search := fun _ _ => some { items := none },
           comments := fun _ => none,
           prDetails := fun _ => none } : GHServer).search "issues" "q0" =
            some resp →
          resp.items = none →
          searchGithub
              { search := fun _ _ => some { items := none },
                comments := fun _ => none,
                prDetails := fun _ => none } "issues" "q0" =
            some [])) :=
  ⟨(by intro resp items h hi; cases h; cases hi),
    claim_C10
      { search := fun _ _ => some { items := none },
        comments := fun _ => none, prDetails := fun _ => none } "issues"
      "q0"
      (by
        intro resp items h hi
        cases h
        cases hi)⟩


/-- C4, counterexample: the Jira report's top-level user field is named
`name`, not `user` — the object has no `user` key at all. -/
theorem claim_C4_counterexample :
    (jiraProcess jiraSrvQuiet "alice" ⟨2023, 6, 1⟩ ⟨2023, 6, 30⟩).getField
        "user" = none ∧
      (jiraProcess jiraSrvQuiet "alice" ⟨2023, 6, 1⟩ ⟨2023, 6, 30⟩).getField
        "name" = some (JVal.str "alice") ∧
      (jiraProcess jiraSrvQuiet "alice" ⟨2023, 6, 1⟩ ⟨2023, 6, 30⟩).getField
        "source" = some (JVal.str "jira") :=
  ⟨rfl, rfl, rfl⟩

/-- C4 (amended): every adapter's report has a top-level `source` naming the
service and an `activity` object mapping category names to arrays; GitHub
and GitLab expose the configured username under `user`, but Jira exposes it
under `name` and has no `user` field. -/
theorem claim_C4 (ghSrv : GHServer) (glSrv : GLServer) (jSrv : JiraServer)
    (fuel : Nat) (u : String) (s t : Date) (uid : Int)
    (hq : (getUserId glSrv u).1 = some uid) (hz : uid ≠ 0) :
    ((githubProcess ghSrv u s t).getField "source" =
        some (JVal.str "github") ∧
      (githubProcess ghSrv u s t).getField "user" = some (JVal.str u) ∧
      ((githubProcess ghSrv u s t).getField "activity").map
          JVal.isActivityObj = some true) ∧
    ((gitlabProcess glSrv fuel u s t).1.getField "source" =
        some (JVal.str "gitlab") ∧
      (gitlabProcess glSrv fuel u s t).1.getField "user" =
        some (JVal.str u) ∧
      ((gitlabProcess glSrv fuel u s t).1.getField "activity").map
          JVal.isActivityObj = some true) ∧
    ((jiraProcess jSrv u s t).getField "source" = some (JVal.str "jira") ∧
      (jiraProcess jSrv u s t).getField "user" = none ∧
      (jiraProcess jSrv u s t).getField "name" = some (JVal.str u) ∧
      ((jiraProcess jSrv u s t).getField "activity").map
          JVal.isActivityObj = some true) := by
  have hgl : gitlabProcess glSrv fuel u s t =
      (JVal.obj [("source", JVal.str "gitlab"), ("user", JVal.str u),
        ("activity", JVal.obj
          [("issues", JVal.arr
              ((getUserIssuesGL glSrv fuel uid s t).1.map
                GLIssueRecord.toJVal)),
           ("merge_requests", JVal.arr
              ((getUserMergeRequestsGL glSrv fuel uid s t).1.map
                GLMergeRequestRecord.toJVal))])],
       (getUserId glSrv u).2 ++ (getUserIssuesGL glSrv fuel uid s t).2 ++
         (getUserMergeRequestsGL glSrv fuel uid s t).2) := by
    simp only [gitlabProcess]
    rw [hq]
    simp [hz]
  refine ⟨⟨rfl, rfl, rfl⟩, ⟨?_, ?_, ?_⟩, ⟨rfl, rfl, rfl, rfl⟩⟩
  · rw [hgl]
    rfl
  · rw [hgl]
    rfl
  · rw [hgl]
    rfl

/-- Witness for C4 with concrete quiet servers and GitLab user id 7. -/
theorem claim_C4_witness :
    ((getUserId glSrvSeven "alice").1 = some 7 ∧ (7 : Int) ≠ 0) ∧
    (((githubProcess ghSrvQuiet "alice" ⟨2023, 6, 1⟩ ⟨2023, 6, 30⟩).getField
          "source" = some (JVal.str "github") ∧
        (githubProcess ghSrvQuiet "alice" ⟨2023, 6, 1⟩
              ⟨2023, 6, 30⟩).getField "user" = some (JVal.str "alice") ∧
        ((githubProcess ghSrvQuiet "alice" ⟨2023, 6, 1⟩
              ⟨2023, 6, 30⟩).getField "activity").map JVal.isActivityObj =
          some true) ∧
      ((gitlabProcess glSrvSeven 3 "alice" ⟨2023, 6, 1⟩
            ⟨2023, 6, 30⟩).1.getField "source" = some (JVal.str "gitlab") ∧
        (gitlabProcess glSrvSeven 3 "alice" ⟨2023, 6, 1⟩
              ⟨2023, 6, 30⟩).1.getField "user" = some (JVal.str "alice") ∧
        ((gitlabProcess glSrvSeven 3 "alice" ⟨2023, 6, 1⟩
              ⟨2023, 6, 30⟩).1.getField "activity").map JVal.isActivityObj =
          some true) ∧
      ((jiraProcess jiraSrvQuiet "alice" ⟨2023, 6, 1⟩
            ⟨2023, 6, 30⟩).getField "source" = some (JVal.str "jira") ∧
        (jiraProcess jiraSrvQuiet "alice" ⟨2023, 6, 1⟩
              ⟨2023, 6, 30⟩).getField "user" = none ∧
        (jiraProcess jiraSrvQuiet "alice" ⟨2023, 6, 1⟩
              ⟨2023, 6, 30⟩).getField "name" = some (JVal.str "alice") ∧
        ((jiraProcess jiraSrvQuiet "alice" ⟨2023, 6, 1⟩
              ⟨2023, 6, 30⟩).getField "activity").map JVal.isActivityObj =
          some true)) :=
  ⟨⟨rfl, by decide⟩,
    claim_C4 ghSrvQuiet glSrvSeven jiraSrvQuiet 3 "alice" ⟨2023, 6, 1⟩
      ⟨2023, 6, 30⟩ 7 rfl (by decide)⟩

end Worklog
